import Mathlib

/-!
Verification development for the tornwrap repository (codecov/tornwrap).

The repository is a thin layer over the Tornado web framework:
  * src/tornwrap/handler.py  — a RequestHandler subclass customizing
    error classification (log_exception), error rendering (write_error),
    response shaping (finish), request identification (id,
    set_default_headers) and content negotiation (export);
  * src/tornwrap/logger.py   — structured logging: the scrub function
    (secret redaction via the FILTER_SECRETS regular expression), the
    traceback emitter and the per-request handler log record.

This file shallowly embeds those functions over explicit state.  Python
dictionaries used as JSON payloads become association lists over an
inductive JSON value type; Python exceptions raised/dispatched in
log_exception become an inductive type of the exception classes the
source names; the external rollbar service and uuid4 are oracle inputs
threaded through the state.  Machinery of the Tornado framework itself
(the calling convention of log_exception / send_error / write_error /
finish and the behaviour of clear and set_status) is modelled from the
framework contract exactly where the repository's control flow depends
on it, and is marked as such below.
-/

namespace Tornwrap

/-! ## JSON-ish values (Python dict/list payloads)

Python dicts are modelled as association lists in insertion order;
assignment replaces in place if the key exists, else appends
(matching CPython dict semantics as far as lookup order is observable).
Floats are not modelled; no claim depends on float payloads. -/

inductive JVal where
  | jnull : JVal
  | jbool (b : Bool) : JVal
  | jint (n : Int) : JVal
  | jstr (s : String) : JVal
  | jlist (xs : List JVal) : JVal
  | jdict (kvs : List (String × JVal)) : JVal
deriving Repr

abbrev JDict := List (String × JVal)

/-- Python `d[k]` / `d.get(k)` on a dict. -/
def dGet (kvs : JDict) (k : String) : Option JVal :=
  match kvs with
  | [] => none
  | (k0, v) :: t => if k0 = k then some v else dGet t k

/-- Python `d[k] = v`: replace in place if present, else append. -/
def dSet (kvs : JDict) (k : String) (v : JVal) : JDict :=
  match kvs with
  | [] => [(k, v)]
  | (k0, v0) :: t => if k0 = k then (k0, v) :: t else (k0, v0) :: dSet t k v

/-- Python `d.setdefault(k, v)`: insert only when absent; returns the dict. -/
def dSetdefault (kvs : JDict) (k : String) (v : JVal) : JDict :=
  match dGet kvs k with
  | some _ => kvs
  | none => dSet kvs k v

/-- Projection used to state claims without deciding JVal equality. -/
def asStr : Option JVal → Option String
  | some (JVal.jstr s) => some s
  | _ => none

/-- Projection to an integer payload. -/
def asInt : Option JVal → Option Int
  | some (JVal.jint n) => some n
  | _ => none

/-- Python `int(x)` on the JSON values a `meta.status` entry can hold:
integers pass through, booleans become 0/1, strings of decimal digits
(with an optional sign) parse; anything else raises (None here).
(Python also accepts surrounding whitespace in strings and truncates
floats; no claim depends on those cases.) -/
def pyInt : JVal → Option Int
  | JVal.jint n => some n
  | JVal.jbool b => some (if b then 1 else 0)
  | JVal.jstr s =>
      match s.data with
      | [] => none
      | c :: cs =>
          let digits := fun (l : List Char) =>
            if l ≠ [] ∧ l.all Char.isDigit then
              some (l.foldl (fun (a : Nat) c => a * 10 + (c.toNat - 48)) 0)
            else none
          if c = '-' then (digits cs).map (fun n => -(n : Int))
          else if c = '+' then (digits cs).map (fun n => (n : Int))
          else (digits (c :: cs)).map (fun n => (n : Int))
  | _ => none

/-! ## Content negotiation: `RequestHandler.export` (handler.py line 33)

    return (self.path_kwargs.get('export', None)
            or ('html' if 'text/html' in self.request.headers.get("Accept", "")
                else 'json')).replace('.', '')

Python `or` takes the right operand when the left is falsy, i.e. both
when the key is absent (None) and when its value is the empty string. -/

/-- Substring containment, Python `needle in hay`. -/
def strIn (needle hay : String) : Bool :=
  let rec go (n : List Char) : List Char → Bool
    | [] => n.isEmpty
    | c :: cs => n.isPrefixOf (c :: cs) || go n cs
  go needle.data hay.data

/-- Python `s.replace('.', '')`. -/
def removeDots (s : String) : String :=
  ⟨s.data.filter (fun c => c ≠ '.')⟩

/-- handler.py line 33, with the `or`-truthiness made explicit. -/
def exportFmt (pathExport : Option String) (accept : String) : String :=
  let base :=
    match pathExport with
    | some s => if s = "" then (if strIn "text/html" accept then "html" else "json") else s
    | none => if strIn "text/html" accept then "html" else "json"
  removeDots base

/-! ## Exceptions dispatched by `RequestHandler.log_exception`

The exception classes handler.py names: tornado's MissingArgumentError
(an HTTPError subclass carrying status 400 and log_message
"Missing argument NAME"), valideer's ValidationError (with a message
and a `context` field list), tornado's HTTPError itself (status,
log_message and the optional `reason` keyword), tornpsql's DataError,
and anything else.  `typ is HTTPError` in the source is an exact class
test, so it holds only for the `httpError` constructor, while
`isinstance(error, HTTPError)` also holds for `missingArg`. -/

inductive Exc where
  | missingArg (argName : String) : Exc
  | validation (msg : String) (context : List String) : Exc
  | httpError (status : Int) (logMessage : String) (reasonKw : Option String) : Exc
  | dataError (sql : String) : Exc
  | other (msg : String) : Exc
deriving Repr, DecidableEq

/-- `typ is HTTPError and value.status_code < 500` (handler.py lines 90, 93). -/
def isExactHttpUnder500 : Exc → Bool
  | Exc.httpError s _ _ => decide (s < 500)
  | _ => false

/-- `isinstance(error, HTTPError)` as used in write_error (line 166). -/
def isInstanceHttpError : Exc → Bool
  | Exc.httpError _ _ _ => true
  | Exc.missingArg _ => true
  | _ => false

/-- What the rollbar.report_exc_info call would do if reached: return a
token, return None (reporting disabled), or raise. -/
inductive RollbarOutcome where
  | success (tok : String) : RollbarOutcome
  | returnedNone : RollbarOutcome
  | raised : RollbarOutcome
deriving Repr, DecidableEq

/-- Python exceptions our embedding of the repository can raise. -/
inductive PyErr where
  | typeError : PyErr
  | attributeError : PyErr
  | valueError : PyErr
deriving Repr, DecidableEq

/-! ## Handler state -/

/-- Response-header association list, insertion-ordered. -/
def hGet (hs : List (String × String)) (k : String) : Option String :=
  match hs with
  | [] => none
  | (k0, v) :: t => if k0 = k then some v else hGet t k

def hSet (hs : List (String × String)) (k v : String) : List (String × String) :=
  match hs with
  | [] => [(k, v)]
  | (k0, v0) :: t => if k0 = k then (k0, v) :: t else (k0, v0) :: hSet t k v

def hDel (hs : List (String × String)) (k : String) : List (String × String) :=
  hs.filter (fun kv => kv.1 ≠ k)

/-- The per-request state: application settings and request data
(immutable inputs), oracles for the external world (uuid4, rollbar,
the template loader), and the mutable response/effect state.  Effect
counters record what the logger module emitted. -/
structure St where
  rollbarAccessToken : Option String := none
  accept : String := ""
  reqXRequestId : Option String := none
  pathExport : Option String := none
  pathId : Option String := none
  pathMore : Option String := none
  resource : String := "things"
  reqMethod : String := "GET"
  uuid : String := "11111111-2222-3333-4444-555555555555"
  templateExistsFn : String → Bool := fun _ => false
  renderOutFn : String → String := fun d => "rendered:" ++ d
  rollbarWould : RollbarOutcome := RollbarOutcome.raised
  status : Int := 200
  reason : String := "OK"
  headers : List (String × String) := [("Server", "TornadoServer")]
  idMemo : Option String := none
  rollbarTokenAttr : Option (Option String) := none
  tracebacksSaved : Nat := 0
  loggerTracebacks : Nat := 0
  loggerLogs : Nat := 0
  superLogExceptionCalled : Bool := false
  rollbarReported : Bool := false
  errorAttr : Option String := none
  finished : Option JVal := none
  secondaryError : Bool := false
  /-- Observation only: the `data` dict handed to `self.finish({"error": data})`
  at handler.py line 181 (the error payload, before any template rendering). -/
  errorDataSent : Option JDict := none
  /-- Observation only: the mapping as of handler.py line 117, i.e. after the
  list wrap and the meta injections, before rendering/transmission. -/
  shaped : Option JDict := none

/-- tornwrap.logger.log observed as an effect (logger.py line 74). -/
def loggerLogEff (st : St) : St := { st with loggerLogs := st.loggerLogs + 1 }

/-- tornwrap.logger.traceback observed as an effect (logger.py line 59):
one traceback record emitted to the repository's log. -/
def loggerTracebackEff (st : St) : St :=
  { st with loggerTracebacks := st.loggerTracebacks + 1 }

/-- handler.py lines 47-51: `id` is memoized in `self._id`; first access
takes the X-Request-Id request header, else a fresh uuid4. -/
def getId (st : St) : String × St :=
  match st.idMemo with
  | some i => (i, st)
  | none =>
      let i := st.reqXRequestId.getD st.uuid
      (i, { st with idMemo := some i })

/-- handler.py lines 53-55: drop the Server header, echo the request id. -/
def setDefaultHeaders (st : St) : St :=
  let st1 := { st with headers := hDel st.headers "Server" }
  let (i, st2) := getId st1
  { st2 with headers := hSet st2.headers "X-Request-Id" i }

/-- Framework glue, modelled from tornado.web.RequestHandler.clear:
reset headers (tornado re-adds its Server header), status 200 / "OK",
then call the handler's set_default_headers override. -/
def clearH (st : St) : St :=
  setDefaultHeaders
    { st with headers := [("Server", "TornadoServer")], status := 200, reason := "OK" }

/-- Framework glue: tornado's reason phrases for the statuses the
repository's flows produce. -/
def reasonFor (code : Int) : String :=
  if code = 400 then "Bad Request"
  else if code = 401 then "Unauthorized"
  else if code = 404 then "Not Found"
  else if code = 405 then "Method Not Allowed"
  else if code = 500 then "Internal Server Error"
  else if code = 503 then "Service Unavailable"
  else "Unknown"

/-- Framework glue, tornado set_status: record the code; the reason
phrase is the explicit one if given, else the standard phrase. -/
def setStatus (st : St) (code : Int) (reasonOpt : Option String) : St :=
  { st with status := code, reason := reasonOpt.getD (reasonFor code) }

/-- handler.py lines 74-77: append the formatted traceback to
`self.tracebacks` (observed here as a count). -/
def saveTraceback (st : St) : St :=
  { st with tracebacksSaved := st.tracebacksSaved + 1 }

/-- handler.py lines 93-100 (and the surrounding try/except): call
rollbar.report_exc_info; on success remember `_rollbar_token`, on an
exception emit a secondary logger.traceback and leave the attribute
unset. -/
def rollbarReport (st : St) : St :=
  let st1 := { st with rollbarReported := true }
  match st.rollbarWould with
  | RollbarOutcome.success tok => { st1 with rollbarTokenAttr := some (some tok) }
  | RollbarOutcome.returnedNone => { st1 with rollbarTokenAttr := some none }
  | RollbarOutcome.raised => loggerTracebackEff st1

/-! ## `RequestHandler.finish` (handler.py lines 108-138) -/

/-- The template path built by convention (lines 122-128), a function of
the negotiated format, the resource, the method and the path kwargs.
For status 200/201:  EXPORT/RESOURCE_METHOD_{one|many}.EXPORT, where
"one" needs a truthy `id` path kwarg and `more` absent; otherwise
EXPORT/errors/STATUS.EXPORT. -/
def docPath (st : St) (exp : String) : String :=
  if st.status = 200 ∨ st.status = 201 then
    let one := (match st.pathId with | some s => decide (s ≠ "") | none => false)
               && decide (st.pathMore = none)
    exp ++ "/" ++ st.resource ++ "_" ++ st.reqMethod.toLower ++ "_"
        ++ (if one then "one" else "many") ++ "." ++ exp
  else
    exp ++ "/errors/" ++ toString st.status ++ "." ++ exp

/-- Lines 130-133: render_string(doc, **chunk); only a missing template
(IOError) is caught and degrades to the diagnostic string.  The
rendered output is an oracle function of the template path; its
dependence on the chunk is not observed by any claim. -/
def renderOrFallback (st : St) (doc : String) : JVal :=
  if st.templateExistsFn doc then JVal.jstr (st.renderOutFn doc)
  else JVal.jstr ("template not found at " ++ doc)

/-- handler.py lines 108-138.  `type(chunk) is list` wraps a sequence;
`type(chunk) is dict` injects meta.status (defaulting to
`self.get_status() or 200`), re-applies the status through `int(...)`,
stamps meta.request with the request id, and for txt/html formats
renders the conventional template with plain-text fallback.  Failure
points kept from Python: `.setdefault` on a non-dict `meta` raises
AttributeError, a non-numeric `meta['status']` makes `int()` raise
ValueError.  Returns the state plus the chunk handed to the
framework's finish (the transmitted payload). -/
def finishH (st : St) (chunk : Option JVal) : Except PyErr (St × Option JVal) :=
  let chunk1 : Option JVal :=
    match chunk with
    | some (JVal.jlist xs) =>
        some (JVal.jdict (dSet (dSet [] st.resource (JVal.jlist xs)) "meta"
          (JVal.jdict [("total", JVal.jint xs.length)])))
    | c => c
  match chunk1 with
  | some (JVal.jdict kvs) =>
      let metaE : Except PyErr JDict :=
        match dGet kvs "meta" with
        | none => Except.ok []
        | some (JVal.jdict m) => Except.ok m
        | some _ => Except.error PyErr.attributeError
      match metaE with
      | Except.error err => Except.error err
      | Except.ok meta0 =>
          let statusDefault : Int := if st.status = 0 then 200 else st.status
          let meta1 := dSetdefault meta0 "status" (JVal.jint statusDefault)
          match pyInt ((dGet meta1 "status").getD JVal.jnull) with
          | none => Except.error PyErr.valueError
          | some n =>
              let st1 := setStatus st n none
              let (idv, st2) := getId st1
              let meta2 := dSet meta1 "request" (JVal.jstr idv)
              let kvs2 := dSet kvs "meta" (JVal.jdict meta2)
              let st2 := { st2 with shaped := some kvs2 }
              let exp := exportFmt st2.pathExport st2.accept
              if exp = "txt" ∨ exp = "html" then
                let ctype := "text/" ++ (if exp = "txt" then "plain" else "html")
                let st3 := { st2 with headers := hSet st2.headers "Content-Type" ctype }
                let doc := docPath st3 exp
                let body := renderOrFallback st3 doc
                Except.ok ({ st3 with finished := some body }, some body)
              else
                Except.ok ({ st2 with finished := some (JVal.jdict kvs2) },
                           some (JVal.jdict kvs2))
  | c => Except.ok ({ st with finished := c }, c)

/-! ## `RequestHandler.write_error` (handler.py lines 148-181) -/

/-- Lines 177-179: when `_rollbar_token` is set and truthy, expose it as
the X-Rollbar-Token header and the `rollbar` entry of the data dict. -/
def rollbarDecorate (st : St) (data : JDict) : St × JDict :=
  match st.rollbarTokenAttr with
  | some (some tok) =>
      ({ st with headers := hSet st.headers "X-Rollbar-Token" tok },
       dSet data "rollbar" (JVal.jstr tok))
  | _ => (st, data)

/-- Lines 175-181: set the status, decorate with the rollbar token, and
finish with `{"error": data}` (which runs through the finish override
above). -/
def writeErrorFinish (st : St) (statusCode : Int) (data : JDict) : Except PyErr St :=
  let st1 := setStatus st statusCode none
  let (st2, data2) := rollbarDecorate st1 data
  let st3 := { st2 with errorDataSent := some data2 }
  (finishH st3 (some (JVal.jdict [("error", JVal.jdict data2)]))).map Prod.fst

/-- handler.py lines 148-181.  `for_human` is
`reason or self._reason or "unknown"` (Python or-truthiness), then the
exc_info classification: ValidationError forces status 400 and the
field list; DataError stores the sql and a fixed robot message;
HTTPError instances add WWW-Authenticate on 401 and report their
log_message (MissingArgumentError is such an instance, with
log_message "Missing argument NAME"); anything else stringifies. -/
def writeErrorBody (st0 : St) (statusCode : Int) (reasonArg : Option String)
    (excInfo : Option Exc) : Except PyErr St :=
  let forHuman :=
    match reasonArg with
    | some r => if r = "" then (if st0.reason = "" then "unknown" else st0.reason) else r
    | none => if st0.reason = "" then "unknown" else st0.reason
  let data0 : JDict := [("for_human", JVal.jstr forHuman), ("for_robot", JVal.jstr "unknown")]
  match excInfo with
  | none => writeErrorFinish st0 statusCode data0
  | some e =>
      let st1 := saveTraceback st0
      match e with
      | Exc.validation msg ctx =>
          let data1 := dSet data0 "for_human"
            (JVal.jstr ("Please review the following fields: " ++ String.intercalate ", " ctx))
          let data2 := dSet data1 "context" (JVal.jlist (ctx.map JVal.jstr))
          let data3 := dSet data2 "for_robot" (JVal.jstr msg)
          writeErrorFinish st1 400 data3
      | Exc.dataError sql =>
          let st2 := { st1 with errorAttr := some sql }
          writeErrorFinish st2 statusCode (dSet data0 "for_robot" (JVal.jstr "rejected sql query"))
      | Exc.missingArg n =>
          writeErrorFinish st1 statusCode
            (dSet data0 "for_robot" (JVal.jstr ("Missing argument " ++ n)))
      | Exc.httpError s m _ =>
          let st2 := if s = 401 then
              { st1 with headers := hSet st1.headers "WWW-Authenticate" "Basic realm=Restricted" }
            else st1
          writeErrorFinish st2 statusCode (dSet data0 "for_robot" (JVal.jstr m))
      | Exc.other msg =>
          writeErrorFinish st1 statusCode (dSet data0 "for_robot" (JVal.jstr msg))

/-- The keyword parameters `def write_error(self, status_code,
reason=None, exc_info=None)` (handler.py line 148) accepts.  There is
no `**kwargs`, so a call passing any other keyword raises TypeError
before the body runs. -/
def acceptedWriteErrorKwargs : List String := ["reason", "exc_info"]

/-- A call to self.write_error with the keyword names used at the call
site: Python rejects unexpected keywords with TypeError at call time. -/
def callWriteError (st : St) (statusCode : Int) (kwargNames : List String)
    (reasonArg : Option String) (excInfo : Option Exc) : Except PyErr St :=
  if kwargNames.all (fun k => acceptedWriteErrorKwargs.contains k) then
    writeErrorBody st statusCode reasonArg excInfo
  else Except.error PyErr.typeError

/-! ## `RequestHandler.log_exception` (handler.py lines 79-105) -/

/-- handler.py lines 79-105.  The two recognised classes call self.log
and then self.write_error with keywords `type`, `reason`, `exc_info`
(lines 83 and 87) — keywords checked against the write_error signature
above.  Everything else emits a logger.traceback unless it is exactly
an HTTPError below 500, reports to rollbar when a token is configured
(same exemption), and defers to the framework's log_exception.  The
whole body sits in a try/except whose handler is the framework's
log_exception (lines 104-105), so a TypeError from the calls above is
swallowed there. -/
def logException (st : St) (e : Exc) : St :=
  match e with
  | Exc.missingArg n =>
      let st1 := loggerLogEff st
      match callWriteError st1 400 ["type", "reason", "exc_info"]
              (some ("Missing required argument `" ++ n ++ "`")) (some e) with
      | Except.ok s => s
      | Except.error _ => { st1 with superLogExceptionCalled := true }
  | Exc.validation msg ctx =>
      let st1 := loggerLogEff st
      match callWriteError st1 400 ["type", "reason", "exc_info"]
              (some msg) (some (Exc.validation msg ctx)) with
      | Except.ok s => s
      | Except.error _ => { st1 with superLogExceptionCalled := true }
  | _ =>
      let st1 := if isExactHttpUnder500 e then st else loggerTracebackEff st
      let st2 := if st1.rollbarAccessToken.isSome && !(isExactHttpUnder500 e) then
          rollbarReport st1
        else st1
      { st2 with superLogExceptionCalled := true }

/-! ## The framework's exception flow (tornado glue)

Modelled from tornado.web.RequestHandler._handle_request_exception and
send_error: after log_exception, an HTTPError's status passes through
(MissingArgumentError carries 400) and anything else becomes 500; then
clear(), set_status (with the HTTPError's reason keyword when given)
and a write_error call whose only keyword is exc_info.  An exception
escaping write_error is logged by the framework and the response is
left unfinished (`secondaryError`). -/
/-- tornado: HTTPError statuses pass through (MissingArgumentError
carries 400), everything else becomes 500. -/
def excCode : Exc → Int
  | Exc.missingArg _ => 400
  | Exc.httpError s _ _ => s
  | _ => 500

/-- tornado send_error: an HTTPError's `reason` keyword, when set. -/
def excReason : Exc → Option String
  | Exc.httpError _ _ (some r) => some r
  | _ => none

def handleRequestException (st : St) (e : Exc) : St :=
  let st1 := logException st e
  let st2 := setStatus (clearH st1) (excCode e) (excReason e)
  match callWriteError st2 (excCode e) ["exc_info"] none (some e) with
  | Except.ok s => s
  | Except.error _ => { st2 with secondaryError := true }

/-! ## Helpers for stating the claims -/

/-- A fully default state (no rollbar token, empty Accept, json export). -/
def stDefault : St := {}

/-- A request state from its inputs: rollbar token setting, the rollbar
oracle, Accept header, X-Request-Id request header, the uuid4 oracle,
the export/id/more path kwargs, the resource, the request method, and
the template oracles.  All mutable response state starts fresh. -/
def mkSt (tok : Option String) (ro : RollbarOutcome) (acc : String)
    (rid : Option String) (uu : String) (pexp pid pmore : Option String)
    (res meth : String) (tex : String → Bool) (ren : String → String) : St :=
  { rollbarAccessToken := tok, rollbarWould := ro, accept := acc,
    reqXRequestId := rid, uuid := uu, pathExport := pexp, pathId := pid,
    pathMore := pmore, resource := res, reqMethod := meth,
    templateExistsFn := tex, renderOutFn := ren }

def isMissingArg : Exc → Bool
  | Exc.missingArg _ => true
  | _ => false

def isValidation : Exc → Bool
  | Exc.validation _ _ => true
  | _ => false

/-- A field of the error payload dict handed to finish at line 181. -/
def errorDataField (st : St) (k : String) : Option JVal :=
  match st.errorDataSent with
  | some d => dGet d k
  | none => none

/-- The meta.request entry of the shaped response mapping (line 117). -/
def shapedMetaField (st : St) (k : String) : Option JVal :=
  match st.shaped with
  | some kvs =>
      match dGet kvs "meta" with
      | some (JVal.jdict m) => dGet m k
      | _ => none
  | none => none

/-- Did a write_error call raise TypeError?  (St itself carries oracle
functions, so Except values are compared through this projection.) -/
def isTypeError : Except PyErr St → Bool
  | Except.error PyErr.typeError => true
  | _ => false

/-! ## logger.py lines 14 and 55-56: FILTER_SECRETS and scrub

    FILTER_SECRETS = re.compile(r'(?P<key>\w*secret|token|auth|password\w*\=)'
                                r'(?P<secret>[^\&\s]+)')
    def scrub(data):
        return FILTER_SECRETS.sub(r'\g<key>=secret', data)

The regular expression is embedded directly as a backtracking matcher
specialized to this one pattern, following Python re semantics: the
scan tries positions left to right; at a position the key alternatives
are tried in order (`\w*secret` with a greedy, backtracking `\w*`, then
the literals `token` and `auth`, then `password\w*\=` whose `\w*` is
effectively deterministic because `=` is not a word character); the
`secret` group `[^\&\s]+` is greedy.  On a match, sub emits the key
group followed by the literal `=secret` and the scan resumes after the
match.  Python 2 `\w` without re.UNICODE is [a-zA-Z0-9_]; `\s` is
space, tab, newline, carriage return, vertical tab and form feed. -/

def pyWordChar (c : Char) : Bool :=
  (decide ('a' ≤ c) && decide (c ≤ 'z')) || (decide ('A' ≤ c) && decide (c ≤ 'Z'))
    || (decide ('0' ≤ c) && decide (c ≤ '9')) || c == '_'

def pySpaceChar (c : Char) : Bool :=
  c == ' ' || c == '\t' || c == '\n' || c == '\r' || c == Char.ofNat 11 || c == Char.ofNat 12

/-- A character stopping the `[^\&\s]+` value group. -/
def stopChar (c : Char) : Bool := c == '&' || pySpaceChar c

def secretChars : List Char := ['s', 'e', 'c', 'r', 'e', 't']
def tokenChars : List Char := ['t', 'o', 'k', 'e', 'n']
def authChars : List Char := ['a', 'u', 't', 'h']
def passwordChars : List Char := ['p', 'a', 's', 's', 'w', 'o', 'r', 'd']
/-- The text sub inserts after the key group: literally "=secret". -/
def eqSecretChars : List Char := ['=', 's', 'e', 'c', 'r', 'e', 't']

/-- Strip an exact prefix, returning the remainder. -/
def stripPre (p s : List Char) : Option (List Char) :=
  match p, s with
  | [], rest => some rest
  | _ :: _, [] => none
  | a :: ps, c :: cs => if c = a then stripPre ps cs else none

/-- `[^\&\s]+`, greedy: the nonempty maximal run of non-stop characters,
with the rest of the input. -/
def grpRun (s : List Char) : Option (List Char × List Char) :=
  match s with
  | [] => none
  | c :: cs =>
      if stopChar c then none
      else some (c :: cs.takeWhile (fun x => !stopChar x), cs.dropWhile (fun x => !stopChar x))

/-- Alternative `\w*secret` followed by the value group.  Python tries
the longest `\w*` first and backtracks, which the recursion-first
ordering reproduces.  Returns (key group, rest after the full match). -/
def tryB1 : List Char → Option (List Char × List Char)
  | [] => none
  | c :: cs =>
      (if pyWordChar c then (tryB1 cs).map (fun kr => (c :: kr.1, kr.2)) else none)
      <|>
      (match stripPre secretChars (c :: cs) with
       | some r => (grpRun r).map (fun gr => (secretChars, gr.2))
       | none => none)

/-- Alternative `token` followed by the value group. -/
def tryB2 (s : List Char) : Option (List Char × List Char) :=
  match stripPre tokenChars s with
  | some r => (grpRun r).map (fun gr => (tokenChars, gr.2))
  | none => none

/-- Alternative `auth` followed by the value group. -/
def tryB3 (s : List Char) : Option (List Char × List Char) :=
  match stripPre authChars s with
  | some r => (grpRun r).map (fun gr => (authChars, gr.2))
  | none => none

/-- Alternative `password\w*\=` followed by the value group.  `=` is not
a word character, so only the maximal `\w*` run can be followed by `=`
and Python's backtracking collapses to this single check. -/
def tryB4 (s : List Char) : Option (List Char × List Char) :=
  match stripPre passwordChars s with
  | some r =>
      match r.dropWhile pyWordChar with
      | c :: r2 =>
          if c = '=' then
            (grpRun r2).map (fun gr => (passwordChars ++ r.takeWhile pyWordChar ++ ['='], gr.2))
          else none
      | [] => none
  | none => none

/-- The full pattern at one position: alternatives in source order. -/
def matchAt (s : List Char) : Option (List Char × List Char) :=
  tryB1 s <|> tryB2 s <|> tryB3 s <|> tryB4 s

/-- The substitution scan, fueled (fuel ≥ length suffices: every step
consumes at least one character). -/
def scrubGo : Nat → List Char → List Char
  | 0, s => s
  | _ + 1, [] => []
  | f + 1, c :: cs =>
      match matchAt (c :: cs) with
      | some (k, r) => k ++ eqSecretChars ++ scrubGo f r
      | none => c :: scrubGo f cs

def scrubL (s : List Char) : List Char := scrubGo s.length s

/-- logger.py lines 55-56. -/
def scrub (s : String) : String := ⟨scrubL s.data⟩

/-- Boolean substring containment over char lists (used to express
which keys the FILTER_SECRETS pattern can fire on). -/
def infixIn (n : List Char) : List Char → Bool
  | [] => (stripPre n []).isSome
  | c :: cs => (stripPre n (c :: cs)).isSome || infixIn n cs

/-- A string free of all four trigger literals: the pattern cannot
match anywhere inside it. -/
def triggerFree (s : List Char) : Bool :=
  !(infixIn secretChars s) && !(infixIn tokenChars s)
    && !(infixIn authChars s) && !(infixIn passwordChars s)

/-- Ampersand-joined segments. -/
def joinAmp : List String → String
  | [] => ""
  | [x] => x
  | x :: r => x ++ "&" ++ joinAmp r

/-- A query string rendered from key/value pairs, `k1=v1&k2=v2&...`. -/
def renderQS (pairs : List (String × String)) : String :=
  joinAmp (pairs.map (fun kv => kv.1 ++ "=" ++ kv.2))

/-- Shape of the greedy `[^\&\s]+` group's split: nonempty, all
non-stop, and the rest is empty or begins with a stop character. -/
def GrpSplit (g r : List Char) : Prop :=
  g ≠ [] ∧ (∀ c ∈ g, stopChar c = false) ∧ (r = [] ∨ ∃ c t, r = c :: t ∧ stopChar c = true)

/-- Shape of a matched key group, one disjunct per alternative. -/
def KeyShape (k : List Char) : Prop :=
  (∃ w, k = w ++ secretChars ∧ ∀ c ∈ w, pyWordChar c = true)
  ∨ k = tokenChars ∨ k = authChars
  ∨ (∃ w, k = passwordChars ++ w ++ ['='] ∧ ∀ c ∈ w, pyWordChar c = true)

/-- A right context at which no value group can continue: empty, or
starting with a stop character. -/
def StopCtx (t : List Char) : Prop :=
  t = [] ∨ ∃ c t', t = c :: t' ∧ stopChar c = true

/-- The four sensitive key names as written in the pattern. -/
def sensNames : List String := ["secret", "token", "auth", "password"]

/-- What scrub turns a sensitive `k=v` pair into: the value is replaced
by the literal "secret" (for `password` the matched key group carries
its own `=`, producing `password==secret`). -/
def redactedPair (kv : String × String) : String :=
  if kv.1 ∈ sensNames then
    kv.1 ++ (if kv.1 = "password" then "==secret" else "=secret")
  else kv.1 ++ "=" ++ kv.2

/-- Hygiene of one query pair for redaction reasoning: a sensitive key
carries a nonempty value of non-stop characters; any other pair is made
of non-stop characters and contains none of the four trigger literals
(so the pattern cannot fire inside it). -/
def goodPair (kv : String × String) : Bool :=
  if kv.1 ∈ sensNames then
    !kv.2.data.isEmpty && kv.2.data.all (fun c => !stopChar c)
  else
    (kv.1 ++ "=" ++ kv.2).data.all (fun c => !stopChar c)
      && triggerFree ((kv.1 ++ "=" ++ kv.2).data)

/-- The residue of one pair after redaction, read back as a pair: the
value becomes "secret" ("=secret" for the password alternative, whose
key group carries its own `=`). -/
def redactedKV (kv : String × String) : String × String :=
  if kv.1 ∈ sensNames then
    (kv.1, if kv.1 = "password" then "=secret" else "secret")
  else kv

/-! ## logger.py lines 120-150: the per-request handler log record -/

inductive Severity where
  | fatal : Severity
  | warn : Severity
  | info : Severity
deriving Repr, DecidableEq

/-- JSON serialization as json.dumps renders our payloads (default
separators ", " and ": ", insertion order).  String escaping is not
modelled; no claim exercises payloads needing escapes. -/
def dumpsJ : JVal → String
  | JVal.jnull => "null"
  | JVal.jbool true => "true"
  | JVal.jbool false => "false"
  | JVal.jint n => toString n
  | JVal.jstr s => "\"" ++ s ++ "\""
  | JVal.jlist xs => "[" ++ String.intercalate ", " (xs.attach.map (fun v => dumpsJ v.1)) ++ "]"
  | JVal.jdict kvs =>
      "\x7b" ++ String.intercalate ", "
        (kvs.attach.map (fun kv => "\"" ++ kv.1.1 ++ "\": " ++ dumpsJ kv.1.2)) ++ "\x7d"
decreasing_by
  · have := List.sizeOf_lt_of_mem v.2
    simp only [JVal.jlist.sizeOf_spec]
    omega
  · have h1 := List.sizeOf_lt_of_mem kv.2
    obtain ⟨⟨a, b⟩, hm⟩ := kv
    simp only [JVal.jdict.sizeOf_spec]
    simp only [Prod.mk.sizeOf_spec] at h1
    omega

/-- The `_basics` dict of logger.handler (lines 125-134): status,
method, uri, reason, ms, then the optional rollbar token and the
handler-supplied log payload merged in. -/
structure LogReq where
  status : Int
  reqMethod : String
  uri : String
  reason : String
  ms : String
  rollbarToken : Option String
  extra : JDict

def logBasics (r : LogReq) : JDict :=
  let base : JDict :=
    [("status", JVal.jint r.status), ("method", JVal.jstr r.reqMethod),
     ("uri", JVal.jstr r.uri), ("reason", JVal.jstr r.reason), ("ms", JVal.jstr r.ms)]
  let base := match r.rollbarToken with
    | some t => dSet base "rollbar" (JVal.jstr t)
    | none => base
  r.extra.foldl (fun d kv => dSet d kv.1 kv.2) base

/-- logger.py lines 145-150 (with DEBUG off, so no colour prefix):
route by severity, scrubbing the serialized record in every branch. -/
def loggerHandler (r : LogReq) : Severity × String :=
  if r.status > 499 then (Severity.fatal, scrub (dumpsJ (JVal.jdict (logBasics r))))
  else if r.status > 399 then (Severity.warn, scrub (dumpsJ (JVal.jdict (logBasics r))))
  else (Severity.info, scrub (dumpsJ (JVal.jdict (logBasics r))))

/-! ## Plumbing lemmas -/

theorem hGet_hSet_self (hs : List (String × String)) (k v : String) :
    hGet (hSet hs k v) k = some v := by
  induction hs with
  | nil => simp [hSet, hGet]
  | cons kv t ih =>
      by_cases h : kv.1 = k
      · simp [hSet, hGet, h]
      · simp [hSet, hGet, h, ih]

theorem hGet_hSet_ne (hs : List (String × String)) (k k' v : String) (h : k' ≠ k) :
    hGet (hSet hs k v) k' = hGet hs k' := by
  induction hs with
  | nil => simp [hSet, hGet, h, Ne.symm h]
  | cons kv t ih =>
      by_cases h0 : kv.1 = k
      · simp [hSet, hGet, h0, Ne.symm h]
      · simp [hSet, hGet, h0, ih]

theorem getId_fst (st : St) :
    (getId st).1 = st.idMemo.getD (st.reqXRequestId.getD st.uuid) := by
  cases h : st.idMemo <;> simp [getId, h]

theorem getId_snd (st : St) :
    (getId st).2 = { st with idMemo := some ((getId st).1) } := by
  cases h : st.idMemo with
  | none => simp [getId, h]
  | some i =>
      simp only [getId, h]
      cases st
      simp_all

/-- Running finish on an `{"error": data}` payload always succeeds, and
only touches the status, Content-Type header, id memo, shaped/finished
observations; every logging/reporting observation passes through. -/
theorem finishH_error_ok (st : St) (d : JDict) :
    ∃ st' c, finishH st (some (JVal.jdict [("error", JVal.jdict d)])) = Except.ok (st', c)
      ∧ st'.rollbarReported = st.rollbarReported
      ∧ st'.loggerTracebacks = st.loggerTracebacks
      ∧ st'.loggerLogs = st.loggerLogs
      ∧ st'.superLogExceptionCalled = st.superLogExceptionCalled
      ∧ st'.errorDataSent = st.errorDataSent
      ∧ st'.secondaryError = st.secondaryError
      ∧ (∀ k, k ≠ "Content-Type" → hGet st'.headers k = hGet st.headers k)
      ∧ st'.idMemo = some ((getId st).1)
      ∧ shapedMetaField st' "request" = some (JVal.jstr ((getId st).1)) := by
  have e1 : dGet [("error", JVal.jdict d)] "meta" = none := by simp [dGet]
  have e2 : ∀ v, dSetdefault [] "status" v = [("status", v)] := by
    intro v; simp [dSetdefault, dGet, dSet]
  have e3 : ∀ v, dGet [("status", v)] "status" = some v := by
    intro v; simp [dGet]
  simp only [finishH, e1, e2, e3, pyInt, Option.getD_some]
  split <;> split <;> refine ⟨_, _, rfl, ?_⟩ <;>
    simp [getId_snd, setStatus, shapedMetaField, dGet, dSet, getId_fst] <;>
    exact fun k hk => hGet_hSet_ne _ _ _ _ hk

theorem dGet_dSet_self (kvs : JDict) (k : String) (v : JVal) :
    dGet (dSet kvs k v) k = some v := by
  induction kvs with
  | nil => simp [dSet, dGet]
  | cons kv t ih =>
      by_cases h : kv.1 = k
      · simp [dSet, dGet, h]
      · simp [dSet, dGet, h, ih]

theorem dGet_dSet_ne (kvs : JDict) (k k' : String) (v : JVal) (h : k' ≠ k) :
    dGet (dSet kvs k v) k' = dGet kvs k' := by
  induction kvs with
  | nil => simp [dSet, dGet, Ne.symm h]
  | cons kv t ih =>
      by_cases h0 : kv.1 = k
      · simp [dSet, dGet, h0, Ne.symm h]
      · simp [dSet, dGet, h0, ih]

/-- The tail of write_error (set_status, rollbar header/payload, finish
on the error dict) always succeeds and is characterized by the input
state's `_rollbar_token` attribute. -/
theorem writeErrorFinish_ok (st : St) (code : Int) (data : JDict) :
    ∃ st', writeErrorFinish st code data = Except.ok st'
      ∧ st'.rollbarReported = st.rollbarReported
      ∧ st'.loggerTracebacks = st.loggerTracebacks
      ∧ st'.loggerLogs = st.loggerLogs
      ∧ st'.superLogExceptionCalled = st.superLogExceptionCalled
      ∧ st'.idMemo = some ((getId st).1)
      ∧ shapedMetaField st' "request" = some (JVal.jstr ((getId st).1))
      ∧ (∀ k, k ≠ "Content-Type" → k ≠ "X-Rollbar-Token" →
          hGet st'.headers k = hGet st.headers k)
      ∧ (match st.rollbarTokenAttr with
         | some (some t) =>
             hGet st'.headers "X-Rollbar-Token" = some t
             ∧ st'.errorDataSent = some (dSet data "rollbar" (JVal.jstr t))
         | _ =>
             hGet st'.headers "X-Rollbar-Token" = hGet st.headers "X-Rollbar-Token"
             ∧ st'.errorDataSent = some data) := by
  have hdecn : ∀ (stx : St) (d : JDict), stx.rollbarTokenAttr = none →
      rollbarDecorate stx d = (stx, d) := by
    intro stx d h; simp [rollbarDecorate, h]
  have hdecsn : ∀ (stx : St) (d : JDict), stx.rollbarTokenAttr = some none →
      rollbarDecorate stx d = (stx, d) := by
    intro stx d h; simp [rollbarDecorate, h]
  have hdecss : ∀ (stx : St) (d : JDict) (t : String), stx.rollbarTokenAttr = some (some t) →
      rollbarDecorate stx d =
        ({ stx with headers := hSet stx.headers "X-Rollbar-Token" t },
         dSet d "rollbar" (JVal.jstr t)) := by
    intro stx d t h; simp [rollbarDecorate, h]
  rcases htok : st.rollbarTokenAttr with _ | (_ | t)
  case none =>
    obtain ⟨st', c, heq, h1, h2, h3, h4, h5, h6, h7, h8, h9⟩ :=
      finishH_error_ok { setStatus st code none with errorDataSent := some data } data
    have heq2 : (finishH { setStatus st code none with errorDataSent := some data }
        (some (JVal.jdict [("error", JVal.jdict data)]))).map Prod.fst = Except.ok st' := by
      rw [heq]; rfl
    refine ⟨st', ?_, ?_⟩
    · simp only [writeErrorFinish, hdecn (setStatus st code none) data htok]
      exact heq2
    · simp_all [setStatus, getId_fst, htok]
  case some.none =>
    obtain ⟨st', c, heq, h1, h2, h3, h4, h5, h6, h7, h8, h9⟩ :=
      finishH_error_ok { setStatus st code none with errorDataSent := some data } data
    have heq2 : (finishH { setStatus st code none with errorDataSent := some data }
        (some (JVal.jdict [("error", JVal.jdict data)]))).map Prod.fst = Except.ok st' := by
      rw [heq]; rfl
    refine ⟨st', ?_, ?_⟩
    · simp only [writeErrorFinish, hdecsn (setStatus st code none) data htok]
      exact heq2
    · simp_all [setStatus, getId_fst, htok]
  case some.some =>
    obtain ⟨st', c, heq, h1, h2, h3, h4, h5, h6, h7, h8, h9⟩ :=
      finishH_error_ok
        { setStatus st code none with
            headers := hSet (setStatus st code none).headers "X-Rollbar-Token" t,
            errorDataSent := some (dSet data "rollbar" (JVal.jstr t)) }
        (dSet data "rollbar" (JVal.jstr t))
    have heq2 : (finishH
        { setStatus st code none with
            headers := hSet (setStatus st code none).headers "X-Rollbar-Token" t,
            errorDataSent := some (dSet data "rollbar" (JVal.jstr t)) }
        (some (JVal.jdict [("error", JVal.jdict (dSet data "rollbar" (JVal.jstr t)))]))).map Prod.fst
        = Except.ok st' := by
      rw [heq]; rfl
    refine ⟨st', ?_, ?_⟩
    · simp only [writeErrorFinish, hdecss (setStatus st code none) data t htok]
      exact heq2
    · constructor
      · simp_all [setStatus, getId_fst]
      constructor
      · simp_all [setStatus]
      constructor
      · simp_all [setStatus]
      constructor
      · simp_all [setStatus]
      constructor
      · simp_all [setStatus, getId_fst]
      constructor
      · simp_all [setStatus, getId_fst]
      constructor
      · intro k hk1 hk2
        rw [h7 k hk1]
        simp [setStatus, hGet_hSet_ne _ _ _ _ hk2]
      · simp only [htok]
        refine ⟨?_, by simp_all⟩
        rw [h7 "X-Rollbar-Token" (by decide)]
        simp [setStatus, hGet_hSet_self]

/-- write_error (with only exc_info, as the framework calls it) always
succeeds, and carries the observation fields through: it only adds
headers (Content-Type, X-Rollbar-Token, WWW-Authenticate), stamps the
error payload, and leaves every logging/reporting observation alone. -/
theorem writeErrorBody_ok (st : St) (code : Int) (e : Exc) :
    ∃ st', writeErrorBody st code none (some e) = Except.ok st'
      ∧ st'.rollbarReported = st.rollbarReported
      ∧ st'.loggerTracebacks = st.loggerTracebacks
      ∧ st'.loggerLogs = st.loggerLogs
      ∧ st'.superLogExceptionCalled = st.superLogExceptionCalled
      ∧ st'.idMemo = some ((getId st).1)
      ∧ shapedMetaField st' "request" = some (JVal.jstr ((getId st).1))
      ∧ (∀ k, k ≠ "Content-Type" → k ≠ "X-Rollbar-Token" → k ≠ "WWW-Authenticate" →
          hGet st'.headers k = hGet st.headers k)
      ∧ (match st.rollbarTokenAttr with
         | some (some t) =>
             hGet st'.headers "X-Rollbar-Token" = some t
             ∧ (∃ d, st'.errorDataSent = some d ∧ dGet d "rollbar" = some (JVal.jstr t))
         | _ => hGet st'.headers "X-Rollbar-Token" = hGet st.headers "X-Rollbar-Token") := by
  have base : ∀ (stx : St) (cd : Int) (d : JDict),
      stx.rollbarReported = st.rollbarReported →
      stx.loggerTracebacks = st.loggerTracebacks →
      stx.loggerLogs = st.loggerLogs →
      stx.superLogExceptionCalled = st.superLogExceptionCalled →
      stx.idMemo = st.idMemo → stx.reqXRequestId = st.reqXRequestId → stx.uuid = st.uuid →
      stx.rollbarTokenAttr = st.rollbarTokenAttr →
      (∀ k, k ≠ "WWW-Authenticate" → hGet stx.headers k = hGet st.headers k) →
      ∃ st', writeErrorFinish stx cd d = Except.ok st'
        ∧ st'.rollbarReported = st.rollbarReported
        ∧ st'.loggerTracebacks = st.loggerTracebacks
        ∧ st'.loggerLogs = st.loggerLogs
        ∧ st'.superLogExceptionCalled = st.superLogExceptionCalled
        ∧ st'.idMemo = some ((getId st).1)
        ∧ shapedMetaField st' "request" = some (JVal.jstr ((getId st).1))
        ∧ (∀ k, k ≠ "Content-Type" → k ≠ "X-Rollbar-Token" → k ≠ "WWW-Authenticate" →
            hGet st'.headers k = hGet st.headers k)
        ∧ (match st.rollbarTokenAttr with
           | some (some t) =>
               hGet st'.headers "X-Rollbar-Token" = some t
               ∧ (∃ dd, st'.errorDataSent = some dd ∧ dGet dd "rollbar" = some (JVal.jstr t))
           | _ => hGet st'.headers "X-Rollbar-Token" = hGet st.headers "X-Rollbar-Token") := by
    intro stx cd d p1 p2 p3 p4 p5 p6 p7 p8 p9
    obtain ⟨st', heq, h1, h2, h3, h4, h5, h6, h7, h8⟩ := writeErrorFinish_ok stx cd d
    have hid : (getId stx).1 = (getId st).1 := by
      rw [getId_fst, getId_fst, p5, p6, p7]
    refine ⟨st', heq, ?_, ?_, ?_, ?_, ?_, ?_, ?_, ?_⟩
    · rw [h1, p1]
    · rw [h2, p2]
    · rw [h3, p3]
    · rw [h4, p4]
    · rw [h5, hid]
    · rw [h6, hid]
    · intro k k1 k2 k3
      rw [h7 k k1 k2, p9 k k3]
    · rw [p8] at h8
      rcases hrt : st.rollbarTokenAttr with _ | (_ | t) <;>
        rw [hrt] at h8 <;> simp only [hrt] <;> simp only at h8
      · rw [h8.1, p9 _ (by decide)]
      · rw [h8.1, p9 _ (by decide)]
      · exact ⟨h8.1, dSet d "rollbar" (JVal.jstr t), h8.2, dGet_dSet_self _ _ _⟩
  cases e with
  | missingArg n =>
      obtain ⟨st', heq, hs⟩ :=
        base (saveTraceback st) code
          (dSet [("for_human", JVal.jstr (if st.reason = "" then "unknown" else st.reason)),
                 ("for_robot", JVal.jstr "unknown")]
            "for_robot" (JVal.jstr ("Missing argument " ++ n)))
          rfl rfl rfl rfl rfl rfl rfl rfl (fun _ _ => rfl)
      refine ⟨st', ?_, hs⟩
      simp only [writeErrorBody]
      exact heq
  | validation msg ctx =>
      obtain ⟨st', heq, hs⟩ :=
        base (saveTraceback st) 400
          (dSet (dSet (dSet
            [("for_human", JVal.jstr (if st.reason = "" then "unknown" else st.reason)),
             ("for_robot", JVal.jstr "unknown")]
            "for_human"
            (JVal.jstr ("Please review the following fields: " ++ String.intercalate ", " ctx)))
            "context" (JVal.jlist (ctx.map JVal.jstr)))
            "for_robot" (JVal.jstr msg))
          rfl rfl rfl rfl rfl rfl rfl rfl (fun _ _ => rfl)
      refine ⟨st', ?_, hs⟩
      simp only [writeErrorBody]
      exact heq
  | dataError sql =>
      obtain ⟨st', heq, hs⟩ :=
        base { saveTraceback st with errorAttr := some sql } code
          (dSet [("for_human", JVal.jstr (if st.reason = "" then "unknown" else st.reason)),
                 ("for_robot", JVal.jstr "unknown")]
            "for_robot" (JVal.jstr "rejected sql query"))
          rfl rfl rfl rfl rfl rfl rfl rfl (fun _ _ => rfl)
      refine ⟨st', ?_, hs⟩
      simp only [writeErrorBody]
      exact heq
  | other msg =>
      obtain ⟨st', heq, hs⟩ :=
        base (saveTraceback st) code
          (dSet [("for_human", JVal.jstr (if st.reason = "" then "unknown" else st.reason)),
                 ("for_robot", JVal.jstr "unknown")]
            "for_robot" (JVal.jstr msg))
          rfl rfl rfl rfl rfl rfl rfl rfl (fun _ _ => rfl)
      refine ⟨st', ?_, hs⟩
      simp only [writeErrorBody]
      exact heq
  | httpError s m rk =>
      by_cases h401 : s = 401
      · obtain ⟨st', heq, hs⟩ :=
          base { saveTraceback st with
                   headers := hSet (saveTraceback st).headers "WWW-Authenticate" "Basic realm=Restricted" }
            code
            (dSet [("for_human", JVal.jstr (if st.reason = "" then "unknown" else st.reason)),
                   ("for_robot", JVal.jstr "unknown")]
              "for_robot" (JVal.jstr m))
            rfl rfl rfl rfl rfl rfl rfl rfl
            (fun k hk => hGet_hSet_ne _ _ _ _ hk)
        refine ⟨st', ?_, hs⟩
        simp only [writeErrorBody, h401, if_pos]
        exact heq
      · obtain ⟨st', heq, hs⟩ :=
          base (saveTraceback st) code
            (dSet [("for_human", JVal.jstr (if st.reason = "" then "unknown" else st.reason)),
                   ("for_robot", JVal.jstr "unknown")]
              "for_robot" (JVal.jstr m))
            rfl rfl rfl rfl rfl rfl rfl rfl (fun _ _ => rfl)
        refine ⟨st', ?_, hs⟩
        simp only [writeErrorBody, h401, if_neg, if_false]
        exact heq

/-- The generic (else) branch of log_exception, for anything that is
neither a MissingArgumentError nor a ValidationError. -/
theorem logException_generic (st : St) (e : Exc)
    (hma : isMissingArg e = false) (hv : isValidation e = false) :
    logException st e =
      (let st1 := if isExactHttpUnder500 e then st else loggerTracebackEff st
       let st2 := if st1.rollbarAccessToken.isSome && !(isExactHttpUnder500 e) then
           rollbarReport st1
         else st1
       { st2 with superLogExceptionCalled := true }) := by
  cases e <;> simp_all [logException, isMissingArg, isValidation]

/-- The tornado clear(): fresh headers holding only the echoed request
id, status 200 "OK", and the id memoized by set_default_headers. -/
theorem clearH_char (st : St) :
    clearH st = { st with headers := [("X-Request-Id", (getId st).1)],
                          status := 200, reason := "OK",
                          idMemo := some ((getId st).1) } := by
  have h1 : hDel [("Server", "TornadoServer")] "Server" = [] := by simp [hDel]
  simp only [clearH, setDefaultHeaders, h1, hSet]
  rw [getId_snd]
  simp only [getId_fst]
  rfl

/-- handler.py lines 81-83: the MissingArgumentError branch logs, then
the write_error call with keyword `type` raises TypeError, and the
outer except defers to the framework. -/
theorem logException_missingArg (st : St) (n : String) :
    logException st (Exc.missingArg n) =
      { loggerLogEff st with superLogExceptionCalled := true } := by
  simp [logException, callWriteError, acceptedWriteErrorKwargs]

/-- handler.py lines 85-87: same TypeError for the ValidationError branch. -/
theorem logException_validation (st : St) (msg : String) (ctx : List String) :
    logException st (Exc.validation msg ctx) =
      { loggerLogEff st with superLogExceptionCalled := true } := by
  simp [logException, callWriteError, acceptedWriteErrorKwargs]

/-- The driver tail (tornado clear / set_status / write_error) after
log_exception, characterized by the post-log_exception state. -/
theorem driver_tail (stL : St) (cd : Int) (ropt : Option String) (e : Exc) :
    ∃ r, (match callWriteError (setStatus (clearH stL) cd ropt) cd ["exc_info"] none (some e) with
          | Except.ok s => s
          | Except.error _ => { setStatus (clearH stL) cd ropt with secondaryError := true }) = r
      ∧ r.superLogExceptionCalled = stL.superLogExceptionCalled
      ∧ r.rollbarReported = stL.rollbarReported
      ∧ r.loggerTracebacks = stL.loggerTracebacks
      ∧ hGet r.headers "X-Request-Id" = some ((getId stL).1)
      ∧ shapedMetaField r "request" = some (JVal.jstr ((getId stL).1))
      ∧ (match stL.rollbarTokenAttr with
         | some (some t) =>
             hGet r.headers "X-Rollbar-Token" = some t
             ∧ (∃ dd, r.errorDataSent = some dd ∧ dGet dd "rollbar" = some (JVal.jstr t))
         | _ => hGet r.headers "X-Rollbar-Token" = none) := by
  have hkw : (["exc_info"].all (fun k => acceptedWriteErrorKwargs.contains k)) = true := by
    decide
  obtain ⟨st', heq, h1, h2, h3, h4, h5, h6, h7, h8⟩ :=
    writeErrorBody_ok (setStatus (clearH stL) cd ropt) cd e
  have hw : callWriteError (setStatus (clearH stL) cd ropt) cd ["exc_info"] none (some e)
      = Except.ok st' := by
    simp only [callWriteError, hkw, if_pos]
    exact heq
  have hmemo : (setStatus (clearH stL) cd ropt).idMemo = some ((getId stL).1) := by
    rw [clearH_char]; rfl
  have hid : (getId (setStatus (clearH stL) cd ropt)).1 = (getId stL).1 := by
    rw [getId_fst, hmemo]; rfl
  have hhdrs : (setStatus (clearH stL) cd ropt).headers = [("X-Request-Id", (getId stL).1)] := by
    rw [clearH_char]; rfl
  have hattr : (setStatus (clearH stL) cd ropt).rollbarTokenAttr = stL.rollbarTokenAttr := by
    rw [clearH_char]; rfl
  refine ⟨st', by rw [hw], ?_, ?_, ?_, ?_, ?_, ?_⟩
  · rw [h4, clearH_char]; rfl
  · rw [h1, clearH_char]; rfl
  · rw [h2, clearH_char]; rfl
  · rw [h7 _ (by decide) (by decide) (by decide), hhdrs]
    simp [hGet]
  · rw [h6, hid]
  · rw [hattr] at h8
    rcases hrt : stL.rollbarTokenAttr with _ | (_ | t) <;>
      rw [hrt] at h8 <;> simp only [hrt] <;> simp only at h8
    · rw [h8, hhdrs]; simp [hGet]
    · rw [h8, hhdrs]; simp [hGet]
    · exact h8

/-- The whole framework exception flow, characterized relative to the
state log_exception leaves behind. -/
theorem driver_char0 (st0 : St) (e : Exc) :
    ∃ r, handleRequestException st0 e = r
      ∧ r.superLogExceptionCalled = (logException st0 e).superLogExceptionCalled
      ∧ r.rollbarReported = (logException st0 e).rollbarReported
      ∧ r.loggerTracebacks = (logException st0 e).loggerTracebacks
      ∧ hGet r.headers "X-Request-Id" = some ((getId (logException st0 e)).1)
      ∧ shapedMetaField r "request" = some (JVal.jstr ((getId (logException st0 e)).1))
      ∧ (match (logException st0 e).rollbarTokenAttr with
         | some (some t) =>
             hGet r.headers "X-Rollbar-Token" = some t
             ∧ (∃ dd, r.errorDataSent = some dd ∧ dGet dd "rollbar" = some (JVal.jstr t))
         | _ => hGet r.headers "X-Rollbar-Token" = none) := by
  obtain ⟨r, hr, hs⟩ := driver_tail (logException st0 e) (excCode e) (excReason e) e
  exact ⟨r, by simp only [handleRequestException]; exact hr, hs⟩

/-- What log_exception leaves behind, on a fresh request state. -/
theorem logException_char (tok : Option String) (ro : RollbarOutcome) (acc : String)
    (rid : Option String) (uu : String) (pexp pid pmore : Option String)
    (res meth : String) (tex : String → Bool) (ren : String → String) (e : Exc) :
    (logException (mkSt tok ro acc rid uu pexp pid pmore res meth tex ren) e
      ).superLogExceptionCalled = true
    ∧ (logException (mkSt tok ro acc rid uu pexp pid pmore res meth tex ren) e
      ).rollbarReported = (tok.isSome && !(isExactHttpUnder500 e)
        && !(isMissingArg e) && !(isValidation e))
    ∧ (0 < (logException (mkSt tok ro acc rid uu pexp pid pmore res meth tex ren) e
      ).loggerTracebacks ↔ (isMissingArg e = false ∧ isValidation e = false
        ∧ isExactHttpUnder500 e = false))
    ∧ (getId (logException (mkSt tok ro acc rid uu pexp pid pmore res meth tex ren) e)).1
        = rid.getD uu
    ∧ (∀ rb, ro = RollbarOutcome.success rb → tok.isSome = true →
        isExactHttpUnder500 e = false → isMissingArg e = false → isValidation e = false →
        (logException (mkSt tok ro acc rid uu pexp pid pmore res meth tex ren) e
          ).rollbarTokenAttr = some (some rb)) := by
  cases e with
  | missingArg n =>
      rw [logException_missingArg]
      refine ⟨rfl, ?_, ?_, ?_, ?_⟩ <;>
        simp [isMissingArg, mkSt, loggerLogEff, getId_fst]
  | validation msg ctx =>
      rw [logException_validation]
      refine ⟨rfl, ?_, ?_, ?_, ?_⟩ <;>
        simp [isValidation, mkSt, loggerLogEff, getId_fst]
  | httpError s m rk =>
      rw [logException_generic _ (Exc.httpError s m rk) rfl rfl]
      by_cases h5 : s < 500
      · have hu : isExactHttpUnder500 (Exc.httpError s m rk) = true := by
          simp [isExactHttpUnder500, h5]
        refine ⟨?_, ?_, ?_, ?_, ?_⟩ <;>
          simp_all [mkSt, isMissingArg, isValidation, getId_fst, loggerTracebackEff]
      · have hu : isExactHttpUnder500 (Exc.httpError s m rk) = false := by
          simp [isExactHttpUnder500, h5]
        cases tok <;> cases ro <;>
          refine ⟨?_, ?_, ?_, ?_, ?_⟩ <;>
          simp_all [mkSt, isMissingArg, isValidation, getId_fst, loggerTracebackEff,
            rollbarReport]
  | dataError sql =>
      rw [logException_generic _ (Exc.dataError sql) rfl rfl]
      have hu : isExactHttpUnder500 (Exc.dataError sql) = false := rfl
      cases tok <;> cases ro <;>
        refine ⟨?_, ?_, ?_, ?_, ?_⟩ <;>
        simp_all [mkSt, isMissingArg, isValidation, isExactHttpUnder500, getId_fst,
          loggerTracebackEff, rollbarReport]
  | other msg =>
      rw [logException_generic _ (Exc.other msg) rfl rfl]
      have hu : isExactHttpUnder500 (Exc.other msg) = false := rfl
      cases tok <;> cases ro <;>
        refine ⟨?_, ?_, ?_, ?_, ?_⟩ <;>
        simp_all [mkSt, isMissingArg, isValidation, isExactHttpUnder500, getId_fst,
          loggerTracebackEff, rollbarReport]

/-! ## Scrub lemmas -/

theorem wordChar_not_stop {c : Char} (h : pyWordChar c = true) : stopChar c = false := by
  by_contra hs
  have hs' : stopChar c = true := by
    cases hx : stopChar c
    · exact absurd hx hs
    · rfl
  simp only [stopChar, pySpaceChar, Bool.or_eq_true, beq_iff_eq] at hs'
  have hby : c = '&' ∨ c = ' ' ∨ c = '\t' ∨ c = '\n' ∨ c = '\x0d'
      ∨ c = Char.ofNat 11 ∨ c = Char.ofNat 12 := by tauto
  rcases hby with rfl | rfl | rfl | rfl | rfl | rfl | rfl <;> simp [pyWordChar] at h

theorem stop_not_wordChar {c : Char} (h : stopChar c = true) : pyWordChar c = false := by
  cases hw : pyWordChar c
  · rfl
  · rw [wordChar_not_stop hw] at h
    cases h

theorem stripPre_eq_append {p s r : List Char} (h : stripPre p s = some r) : s = p ++ r := by
  induction p generalizing s with
  | nil =>
      simp [stripPre] at h
      simp [h]
  | cons a ps ih =>
      cases s with
      | nil => simp [stripPre] at h
      | cons c cs =>
          simp only [stripPre] at h
          by_cases hc : c = a

          · rw [if_pos hc] at h
            subst hc
            simp [ih h]
          · rw [if_neg hc] at h
            cases h

theorem stripPre_self_append (p r : List Char) : stripPre p (p ++ r) = some r := by
  induction p with
  | nil => simp [stripPre]
  | cons a ps ih => simp [stripPre, ih]

theorem takeWhile_all {q : Char → Bool} {l : List Char} :
    ∀ c ∈ l.takeWhile q, q c = true := by
  induction l with
  | nil => simp
  | cons x xs ih =>
      intro c hc
      by_cases hx : q x
      · rw [List.takeWhile_cons_of_pos hx] at hc
        rcases List.mem_cons.mp hc with rfl | hc
        · exact hx
        · exact ih c hc
      · rw [List.takeWhile_cons_of_neg hx] at hc
        cases hc

theorem dropWhile_head_neg {q : Char → Bool} {l t : List Char} {c : Char}
    (h : l.dropWhile q = c :: t) : q c = false := by
  induction l with
  | nil => cases h
  | cons x xs ih =>
      by_cases hx : q x
      · rw [List.dropWhile_cons_of_pos hx] at h
        exact ih h
      · rw [List.dropWhile_cons_of_neg hx] at h
        injection h with h1 h2
        subst h1
        cases hq : q x
        · rfl
        · exact absurd hq hx

theorem takeWhile_of_all {q : Char → Bool} {l : List Char}
    (h : ∀ c ∈ l, q c = true) : l.takeWhile q = l ∧ l.dropWhile q = [] := by
  induction l with
  | nil => simp
  | cons x xs ih =>
      have hx := h x (by simp)
      have hrest := ih (fun c hc => h c (by simp [hc]))
      rw [List.takeWhile_cons_of_pos hx, List.dropWhile_cons_of_pos hx]
      simp [hrest.1, hrest.2]


theorem takeWhile_ctx {q : Char → Bool} {u : List Char} {c : Char} (v : List Char)
    (hu : ∀ x ∈ u, q x = true) (hc : q c = false) :
    List.takeWhile q (u ++ c :: v) = u := by
  induction u with
  | nil =>
      rw [List.nil_append, List.takeWhile_cons_of_neg (by simp [hc])]
  | cons x xs ih =>
      have hx := hu x (by simp)
      rw [List.cons_append, List.takeWhile_cons_of_pos hx,
        ih (fun y hy => hu y (by simp [hy]))]

theorem dropWhile_ctx {q : Char → Bool} {u : List Char} {c : Char} (v : List Char)
    (hu : ∀ x ∈ u, q x = true) (hc : q c = false) :
    List.dropWhile q (u ++ c :: v) = c :: v := by
  induction u with
  | nil =>
      rw [List.nil_append, List.dropWhile_cons_of_neg (by simp [hc])]
  | cons x xs ih =>
      have hx := hu x (by simp)
      rw [List.cons_append, List.dropWhile_cons_of_pos hx,
        ih (fun y hy => hu y (by simp [hy]))]

theorem grpRun_eq_some {s g r : List Char} (h : grpRun s = some (g, r)) :
    s = g ++ r ∧ GrpSplit g r := by
  cases s with
  | nil => cases h
  | cons c cs =>
      simp only [grpRun] at h
      by_cases hc : stopChar c
      · rw [if_pos hc] at h; cases h
      · rw [if_neg hc] at h
        injection h with h
        injection h with h1 h2
        subst h1; subst h2
        refine ⟨by simp [List.takeWhile_append_dropWhile], ?_, ?_, ?_⟩
        · simp
        · intro x hx
          rcases List.mem_cons.mp hx with rfl | hx
          · cases hsc : stopChar x
            · rfl
            · exact absurd hsc hc
          · have := takeWhile_all x hx
            cases hsc : stopChar x
            · rfl
            · rw [hsc] at this; cases this
        · cases hd : cs.dropWhile (fun x => !stopChar x) with
          | nil => exact Or.inl rfl
          | cons d t =>
              refine Or.inr ⟨d, t, rfl, ?_⟩
              have := dropWhile_head_neg hd
              cases hsc : stopChar d
              · rw [hsc] at this; cases this
              · rfl

theorem grpRun_of_nonstop {s : List Char} (hne : s ≠ [])
    (h : ∀ c ∈ s, stopChar c = false) : grpRun s = some (s, []) := by
  cases s with
  | nil => exact absurd rfl hne
  | cons c cs =>
      have hc := h c (by simp)
      have hall := takeWhile_of_all (q := fun x => !stopChar x)
        (l := cs) (fun x hx => by simp [h x (by simp [hx])])
      simp [grpRun, hc, hall.1, hall.2]

theorem grpRun_none_of_stopCtx {t : List Char} (ht : StopCtx t) : grpRun t = none := by
  rcases ht with rfl | ⟨c, t', rfl, hc⟩
  · rfl
  · simp [grpRun, hc]

theorem tryB1_eq_some {s k r : List Char} (h : tryB1 s = some (k, r)) :
    (∃ w, k = w ++ secretChars ∧ ∀ c ∈ w, pyWordChar c = true)
    ∧ ∃ g, s = k ++ g ++ r ∧ GrpSplit g r := by
  induction s generalizing k r with
  | nil => cases h
  | cons c cs ih =>
      simp only [tryB1] at h
      rcases ho : (if pyWordChar c then (tryB1 cs).map (fun kr => (c :: kr.1, kr.2)) else none)
        with _ | kr0
      · rw [ho] at h
        simp only [Option.none_orElse] at h
        rcases hsp : stripPre secretChars (c :: cs) with _ | r0
        · simp only [hsp] at h; cases h
        · simp only [hsp] at h
          rcases hg : grpRun r0 with _ | gr
          · rw [hg] at h; cases h
          · rw [hg] at h
            simp only [Option.map_some'] at h
            injection h with h
            injection h with h1 h2
            subst h1
            obtain ⟨hr0, hgs⟩ := grpRun_eq_some hg
            refine ⟨⟨[], by simp, by simp⟩, gr.1, ?_, ?_⟩
            · rw [stripPre_eq_append hsp, hr0, ← h2]
              exact (List.append_assoc _ _ _).symm
            · rw [← h2]; exact hgs
      · rw [ho] at h
        simp only [Option.some_orElse] at h
        by_cases hw : pyWordChar c
        · rw [if_pos hw] at ho
          rcases htr : tryB1 cs with _ | kr1
          · rw [htr] at ho; cases ho
          · rw [htr] at ho
            simp only [Option.map_some'] at ho
            injection ho with ho
            rw [← ho] at h
            injection h with h
            injection h with h1 h2
            obtain ⟨⟨w, hw1, hw2⟩, g, hg1, hg2⟩ := ih htr
            subst h1; subst h2
            refine ⟨⟨c :: w, by simp [hw1], ?_⟩, g, by simp [hg1], hg2⟩
            intro x hx
            rcases List.mem_cons.mp hx with rfl | hx
            · exact hw
            · exact hw2 x hx
        · rw [if_neg hw] at ho; cases ho

theorem tryB2_eq_some {s k r : List Char} (h : tryB2 s = some (k, r)) :
    k = tokenChars ∧ ∃ g, s = k ++ g ++ r ∧ GrpSplit g r := by
  simp only [tryB2] at h
  rcases hsp : stripPre tokenChars s with _ | r0
  · simp only [hsp] at h; cases h
  · simp only [hsp] at h
    rcases hg : grpRun r0 with _ | gr
    · rw [hg] at h; cases h
    · rw [hg] at h
      simp only [Option.map_some'] at h
      injection h with h
      injection h with h1 h2
      subst h1
      obtain ⟨hr0, hgs⟩ := grpRun_eq_some hg
      refine ⟨rfl, gr.1, ?_, by rw [← h2]; exact hgs⟩
      rw [stripPre_eq_append hsp, hr0, ← h2]
      exact (List.append_assoc _ _ _).symm

theorem tryB3_eq_some {s k r : List Char} (h : tryB3 s = some (k, r)) :
    k = authChars ∧ ∃ g, s = k ++ g ++ r ∧ GrpSplit g r := by
  simp only [tryB3] at h
  rcases hsp : stripPre authChars s with _ | r0
  · simp only [hsp] at h; cases h
  · simp only [hsp] at h
    rcases hg : grpRun r0 with _ | gr
    · rw [hg] at h; cases h
    · rw [hg] at h
      simp only [Option.map_some'] at h
      injection h with h
      injection h with h1 h2
      subst h1
      obtain ⟨hr0, hgs⟩ := grpRun_eq_some hg
      refine ⟨rfl, gr.1, ?_, by rw [← h2]; exact hgs⟩
      rw [stripPre_eq_append hsp, hr0, ← h2]
      exact (List.append_assoc _ _ _).symm

theorem tryB4_eq_some {s k r : List Char} (h : tryB4 s = some (k, r)) :
    (∃ w, k = passwordChars ++ w ++ ['='] ∧ ∀ c ∈ w, pyWordChar c = true)
    ∧ ∃ g, s = k ++ g ++ r ∧ GrpSplit g r := by
  simp only [tryB4] at h
  rcases hsp : stripPre passwordChars s with _ | r0
  · simp only [hsp] at h; cases h
  · simp only [hsp] at h
    rcases hdw : r0.dropWhile pyWordChar with _ | ⟨c, r2⟩
    · rw [hdw] at h; cases h
    · simp only [hdw] at h
      by_cases hc : c = '='
      · rw [if_pos hc] at h
        subst hc
        rcases hg : grpRun r2 with _ | gr
        · rw [hg] at h; cases h
        · rw [hg] at h
          simp only [Option.map_some'] at h
          injection h with h
          injection h with h1 h2
          subst h1
          obtain ⟨hr2, hgs⟩ := grpRun_eq_some hg
          have hr0 : r0 = r0.takeWhile pyWordChar ++ '=' :: r2 := by
            conv_lhs => rw [← List.takeWhile_append_dropWhile (p := pyWordChar) (l := r0)]
            rw [hdw]
          refine ⟨⟨r0.takeWhile pyWordChar, rfl, fun c hc => takeWhile_all c hc⟩,
            gr.1, ?_, by rw [← h2]; exact hgs⟩
          rw [stripPre_eq_append hsp, hr0, hr2, ← h2]
          simp only [List.append_assoc, List.cons_append, List.nil_append]
          rw [takeWhile_ctx _ (fun x hx => takeWhile_all x hx) (by decide)]
      · rw [if_neg hc] at h; cases h

theorem matchAt_eq_some {s k r : List Char} (h : matchAt s = some (k, r)) :
    KeyShape k ∧ ∃ g, s = k ++ g ++ r ∧ GrpSplit g r := by
  simp only [matchAt] at h
  rcases h1 : tryB1 s with _ | kr
  · rw [h1] at h
    simp only [Option.none_orElse] at h
    rcases h2 : tryB2 s with _ | kr
    · rw [h2] at h
      simp only [Option.none_orElse] at h
      rcases h3 : tryB3 s with _ | kr
      · rw [h3] at h
        simp only [Option.none_orElse] at h
        obtain ⟨hk, hg⟩ := tryB4_eq_some h
        exact ⟨Or.inr (Or.inr (Or.inr hk)), hg⟩
      · rw [h3] at h
        simp only [Option.some_orElse] at h
        cases h
        obtain ⟨hk, hg⟩ := tryB3_eq_some h3
        exact ⟨Or.inr (Or.inr (Or.inl hk)), hg⟩
    · rw [h2] at h
      simp only [Option.some_orElse] at h
      cases h
      obtain ⟨hk, hg⟩ := tryB2_eq_some h2
      exact ⟨Or.inr (Or.inl hk), hg⟩
  · rw [h1] at h
    simp only [Option.some_orElse] at h
    cases h
    obtain ⟨hk, hg⟩ := tryB1_eq_some h1
    exact ⟨Or.inl hk, hg⟩

theorem KeyShape.ne_nil {k : List Char} (h : KeyShape k) : k ≠ [] := by
  rcases h with ⟨w, rfl, _⟩ | rfl | rfl | ⟨w, rfl, _⟩ <;> simp [secretChars, tokenChars, authChars]

theorem matchAt_length {s k r : List Char} (h : matchAt s = some (k, r)) :
    r.length < s.length := by
  obtain ⟨hk, g, hs, hg, _⟩ := matchAt_eq_some h
  have hk' : k.length ≠ 0 := by
    rcases hx : k with _ | _
    · exact absurd hx hk.ne_nil
    · simp [hx]
  have hg' : g.length ≠ 0 := by
    rcases hx : g with _ | _
    · exact absurd hx hg
    · simp [hx]
  rw [hs]
  simp only [List.length_append]
  omega

theorem scrubGo_fuel {f1 f2 : Nat} {s : List Char} (h1 : s.length ≤ f1) (h2 : s.length ≤ f2) :
    scrubGo f1 s = scrubGo f2 s := by
  induction f1 generalizing s f2 with
  | zero =>
      cases s with
      | nil => cases f2 <;> rfl
      | cons c cs => simp at h1
  | succ f ih =>
      cases s with
      | nil => cases f2 <;> rfl
      | cons c cs =>
          cases f2 with
          | zero => simp at h2
          | succ f2' =>
              simp only [scrubGo]
              rcases hm : matchAt (c :: cs) with _ | ⟨k, r⟩
              · simp only [hm]
                simp only [List.length_cons] at h1 h2
                rw [@ih f2' _ (by omega) (by omega)]
              · simp only [hm]
                have hlt := matchAt_length hm
                simp only [List.length_cons] at h1 h2 hlt
                rw [@ih f2' _ (by omega) (by omega)]

theorem scrubL_nil : scrubL [] = [] := rfl

theorem scrubL_cons (c : Char) (cs : List Char) :
    scrubL (c :: cs) =
      match matchAt (c :: cs) with
      | some (k, r) => k ++ eqSecretChars ++ scrubL r
      | none => c :: scrubL cs := by
  simp only [scrubL, List.length_cons, scrubGo]
  rcases hm : matchAt (c :: cs) with _ | ⟨k, r⟩
  · simp only [hm]
  · simp only [hm]
    have hlt := matchAt_length hm
    simp only [List.length_cons] at hlt
    rw [scrubGo_fuel (by omega) (Nat.le_refl _)]

/-- Characters of a matched key group are never stop characters. -/
theorem keyShape_nonstop {k : List Char} (h : KeyShape k) :
    ∀ c ∈ k, stopChar c = false := by
  have hsec : ∀ c ∈ secretChars, stopChar c = false := by decide
  have htok : ∀ c ∈ tokenChars, stopChar c = false := by decide
  have haut : ∀ c ∈ authChars, stopChar c = false := by decide
  have hpwd : ∀ c ∈ passwordChars, stopChar c = false := by decide
  rcases h with ⟨w, rfl, hw⟩ | rfl | rfl | ⟨w, rfl, hw⟩
  · intro c hc
    rcases List.mem_append.mp hc with hc | hc
    · exact wordChar_not_stop (hw c hc)
    · exact hsec c hc
  · exact htok
  · exact haut
  · intro c hc
    rcases List.mem_append.mp hc with hc | hc
    · rcases List.mem_append.mp hc with hc | hc
      · exact hpwd c hc
      · exact wordChar_not_stop (hw c hc)
    · rcases List.mem_cons.mp hc with rfl | hc
      · decide
      · simp at hc

/-- A block of non-stop characters read as a prefix of `u ++ c0 :: tail`
(`c0` a stop character) is confined to `u`. -/
theorem nonstop_prefix_confine {c0 : Char} {tail : List Char} (hstop : stopChar c0 = true) :
    ∀ {x u y : List Char}, (∀ c ∈ x, stopChar c = false) →
      u ++ c0 :: tail = x ++ y → ∃ u2, u = x ++ u2 ∧ y = u2 ++ c0 :: tail := by
  intro x
  induction x with
  | nil =>
      intro u y _ heq
      exact ⟨u, by simp, by simpa using heq.symm⟩
  | cons a x2 ih =>
      intro u y hx heq
      cases u with
      | nil =>
          simp only [List.nil_append, List.cons_append] at heq
          injection heq with h1 h2
          subst h1
          have hns := hx c0 (by simp)
          rw [hns] at hstop
          cases hstop
      | cons b u2 =>
          simp only [List.cons_append] at heq
          injection heq with h1 h2
          subst h1
          obtain ⟨u3, hu, hy⟩ := ih (fun c hc => hx c (by simp [hc])) h2
          exact ⟨u3, by simp [hu], hy⟩

theorem stripPre_isSome_append {n s y : List Char} (h : (stripPre n s).isSome = true) :
    (stripPre n (s ++ y)).isSome = true := by
  induction n generalizing s with
  | nil => simp [stripPre]
  | cons a ps ih =>
      cases s with
      | nil => simp [stripPre] at h
      | cons c cs =>
          simp only [stripPre, List.cons_append] at h ⊢
          by_cases hc : c = a
          · rw [if_pos hc] at h ⊢
            exact ih h
          · rw [if_neg hc] at h
            simp at h

theorem infixIn_of_stripPre {n s : List Char} (h : (stripPre n s).isSome = true) :
    infixIn n s = true := by
  cases s with
  | nil => simpa [infixIn] using h
  | cons c cs => simp [infixIn, h]

theorem infixIn_append_left {n x y : List Char} (h : infixIn n x = true) :
    infixIn n (x ++ y) = true := by
  induction x with
  | nil =>
      simp only [infixIn] at h
      simpa using infixIn_of_stripPre (stripPre_isSome_append (y := y) h)
  | cons c cs ih =>
      simp only [List.cons_append, infixIn, Bool.or_eq_true] at h ⊢
      rcases h with h | h
      · exact Or.inl (by simpa using stripPre_isSome_append (y := y) h)
      · exact Or.inr (ih h)

theorem infixIn_cons {n : List Char} (c : Char) {t : List Char} (h : infixIn n t = true) :
    infixIn n (c :: t) = true := by simp [infixIn, h]

theorem infixIn_suffix {n pre t : List Char} (h : infixIn n t = true) :
    infixIn n (pre ++ t) = true := by
  induction pre with
  | nil => simpa using h
  | cons c cs ih => exact infixIn_cons c ih

/-- Every matched key group contains one of the four trigger literals. -/
theorem key_trigger {k : List Char} (h : KeyShape k) :
    infixIn secretChars k = true ∨ infixIn tokenChars k = true
      ∨ infixIn authChars k = true ∨ infixIn passwordChars k = true := by
  rcases h with ⟨w, rfl, _⟩ | rfl | rfl | ⟨w, rfl, _⟩
  · exact Or.inl (infixIn_suffix (by decide))
  · exact Or.inr (Or.inl (by decide))
  · exact Or.inr (Or.inr (Or.inl (by decide)))
  · refine Or.inr (Or.inr (Or.inr (infixIn_of_stripPre ?_)))
    rw [List.append_assoc, stripPre_self_append]
    rfl

theorem infixIn_tail_false {n : List Char} {c : Char} {cs : List Char}
    (h : infixIn n (c :: cs) = false) : infixIn n cs = false := by
  cases hx : infixIn n cs
  · rfl
  · rw [infixIn_cons c hx] at h
    cases h

theorem triggerFree_tail {c : Char} {cs : List Char} (h : triggerFree (c :: cs) = true) :
    triggerFree cs = true := by
  simp only [triggerFree, Bool.and_eq_true, Bool.not_eq_true'] at h ⊢
  exact ⟨⟨⟨infixIn_tail_false h.1.1.1, infixIn_tail_false h.1.1.2⟩,
    infixIn_tail_false h.1.2⟩, infixIn_tail_false h.2⟩

/-- In an all-non-stop trigger-free block followed by nothing or by an
ampersand, the pattern cannot match at the block head. -/
theorem matchAt_none_tf {u tail : List Char} (hu : ∀ c ∈ u, stopChar c = false)
    (htf : triggerFree u = true) (ht : tail = [] ∨ ∃ rest, tail = '&' :: rest) :
    matchAt (u ++ tail) = none := by
  cases hm : matchAt (u ++ tail) with
  | none => rfl
  | some kr =>
      exfalso
      obtain ⟨k, r⟩ := kr
      obtain ⟨hks, g, heq, hgs⟩ := matchAt_eq_some hm
      have hkg : ∀ c ∈ k ++ g, stopChar c = false := by
        intro c hc
        rcases List.mem_append.mp hc with hc | hc
        · exact keyShape_nonstop hks c hc
        · exact hgs.2.1 c hc
      have hpre : ∃ u2, u = (k ++ g) ++ u2 := by
        rcases ht with rfl | ⟨rest, rfl⟩
        · rcases hgs.2.2 with rfl | ⟨c, t, rfl, hcs⟩
          · exact ⟨[], by simpa [List.append_assoc] using heq⟩
          · have hcu : c ∈ u := by
              rw [List.append_nil] at heq
              rw [heq]
              simp
            rw [hu c hcu] at hcs
            cases hcs
        · obtain ⟨u2, hu2, _⟩ := nonstop_prefix_confine (by decide) hkg heq
          exact ⟨u2, hu2⟩
      obtain ⟨u2, hu2⟩ := hpre
      have hinf : ∀ n : List Char, infixIn n k = true → infixIn n u = true := by
        intro n hn
        rw [hu2]
        exact infixIn_append_left (infixIn_append_left hn)
      simp only [triggerFree, Bool.and_eq_true, Bool.not_eq_true'] at htf
      rcases key_trigger hks with h | h | h | h
      · have := hinf _ h; rw [htf.1.1.1] at this; cases this
      · have := hinf _ h; rw [htf.1.1.2] at this; cases this
      · have := hinf _ h; rw [htf.1.2] at this; cases this
      · have := hinf _ h; rw [htf.2] at this; cases this

theorem scrubL_match_step {c : Char} {cs k r : List Char}
    (hm : matchAt (c :: cs) = some (k, r)) :
    scrubL (c :: cs) = k ++ eqSecretChars ++ scrubL r := by
  rw [scrubL_cons]
  simp only [hm]

theorem scrubL_nomatch_step {c : Char} {cs : List Char}
    (hm : matchAt (c :: cs) = none) :
    scrubL (c :: cs) = c :: scrubL cs := by
  rw [scrubL_cons]
  simp only [hm]

/-- scrub walks through a trigger-free all-non-stop block unchanged. -/
theorem scrubL_tf : ∀ {u : List Char}, (∀ c ∈ u, stopChar c = false) →
    triggerFree u = true → ∀ {tail : List Char},
      (tail = [] ∨ ∃ rest, tail = '&' :: rest) →
      scrubL (u ++ tail) = u ++ scrubL tail := by
  intro u
  induction u with
  | nil => intro _ _ tail _; simp
  | cons c u2 ih =>
      intro hu htf tail ht
      have hm : matchAt ((c :: u2) ++ tail) = none := matchAt_none_tf hu htf ht
      rw [List.cons_append] at hm ⊢
      rw [scrubL_nomatch_step hm,
        ih (fun x hx => hu x (by simp [hx])) (triggerFree_tail htf) ht]
      rfl

/-- The greedy value group takes a non-stop head and run up to the
segment boundary (end of input or ampersand). -/
theorem grpRun_split {c0 : Char} {v tail : List Char} (hc0 : stopChar c0 = false)
    (hv : ∀ c ∈ v, stopChar c = false)
    (ht : tail = [] ∨ ∃ rest, tail = '&' :: rest) :
    grpRun (c0 :: (v ++ tail)) = some (c0 :: v, tail) := by
  rcases ht with rfl | ⟨rest, rfl⟩
  · have h := takeWhile_of_all (q := fun x => !stopChar x) (l := v)
      (fun c hc => by simp [hv c hc])
    simp [grpRun, hc0, h.1, h.2]
  · have h1 := takeWhile_ctx (q := fun x => !stopChar x) (u := v) (c := '&') rest
      (fun c hc => by simp [hv c hc]) (by decide)
    have h2 := dropWhile_ctx (q := fun x => !stopChar x) (u := v) (c := '&') rest
      (fun c hc => by simp [hv c hc]) (by decide)
    simp [grpRun, hc0, h1, h2]

theorem tryB1_cons_noword {c : Char} {cs : List Char} (hw : pyWordChar c = false)
    (h2 : stripPre secretChars (c :: cs) = none) : tryB1 (c :: cs) = none := by
  simp [tryB1, hw, h2]

theorem tryB1_cons_none {c : Char} {cs : List Char} (h1 : tryB1 cs = none)
    (h2 : stripPre secretChars (c :: cs) = none) : tryB1 (c :: cs) = none := by
  cases hw : pyWordChar c <;> simp [tryB1, hw, h1, h2]

theorem tryB1_cons_fire {c : Char} {cs r g rest : List Char} (h1 : tryB1 cs = none)
    (h2 : stripPre secretChars (c :: cs) = some r)
    (h3 : grpRun r = some (g, rest)) : tryB1 (c :: cs) = some (secretChars, rest) := by
  cases hw : pyWordChar c <;> simp [tryB1, hw, h1, h2, h3]

/-- At the head of a `secret=value` segment the first alternative fires
with key group `secret`, consuming through the value. -/
theorem matchAt_secret {v tail : List Char} (hv : ∀ c ∈ v, stopChar c = false)
    (ht : tail = [] ∨ ∃ rest, tail = '&' :: rest) :
    matchAt (secretChars ++ '=' :: (v ++ tail)) = some (secretChars, tail) := by
  have hg : grpRun ('=' :: (v ++ tail)) = some ('=' :: v, tail) :=
    grpRun_split (by decide) hv ht
  have h6 : tryB1 ('=' :: (v ++ tail)) = none :=
    tryB1_cons_noword (by decide) (by simp [stripPre, secretChars])
  have h5 : tryB1 ('t' :: '=' :: (v ++ tail)) = none :=
    tryB1_cons_none h6 (by simp [stripPre, secretChars])
  have h4 : tryB1 ('e' :: 't' :: '=' :: (v ++ tail)) = none :=
    tryB1_cons_none h5 (by simp [stripPre, secretChars])
  have h3 : tryB1 ('r' :: 'e' :: 't' :: '=' :: (v ++ tail)) = none :=
    tryB1_cons_none h4 (by simp [stripPre, secretChars])
  have h2 : tryB1 ('c' :: 'r' :: 'e' :: 't' :: '=' :: (v ++ tail)) = none :=
    tryB1_cons_none h3 (by simp [stripPre, secretChars])
  have h1 : tryB1 ('e' :: 'c' :: 'r' :: 'e' :: 't' :: '=' :: (v ++ tail)) = none :=
    tryB1_cons_none h2 (by simp [stripPre, secretChars])
  have h0 : tryB1 (secretChars ++ '=' :: (v ++ tail)) = some (secretChars, tail) :=
    tryB1_cons_fire h1 (by simp [stripPre, secretChars]) hg
  simp only [matchAt, h0, Option.some_orElse]

/-- At the head of a `token=value` segment the second alternative fires. -/
theorem matchAt_token {v tail : List Char} (hv : ∀ c ∈ v, stopChar c = false)
    (ht : tail = [] ∨ ∃ rest, tail = '&' :: rest) :
    matchAt (tokenChars ++ '=' :: (v ++ tail)) = some (tokenChars, tail) := by
  have hg : grpRun ('=' :: (v ++ tail)) = some ('=' :: v, tail) :=
    grpRun_split (by decide) hv ht
  have h5 : tryB1 ('=' :: (v ++ tail)) = none :=
    tryB1_cons_noword (by decide) (by simp [stripPre, secretChars])
  have h4 : tryB1 ('n' :: '=' :: (v ++ tail)) = none :=
    tryB1_cons_none h5 (by simp [stripPre, secretChars])
  have h3 : tryB1 ('e' :: 'n' :: '=' :: (v ++ tail)) = none :=
    tryB1_cons_none h4 (by simp [stripPre, secretChars])
  have h2 : tryB1 ('k' :: 'e' :: 'n' :: '=' :: (v ++ tail)) = none :=
    tryB1_cons_none h3 (by simp [stripPre, secretChars])
  have h1 : tryB1 ('o' :: 'k' :: 'e' :: 'n' :: '=' :: (v ++ tail)) = none :=
    tryB1_cons_none h2 (by simp [stripPre, secretChars])
  have h0 : tryB1 (tokenChars ++ '=' :: (v ++ tail)) = none :=
    tryB1_cons_none h1 (by simp [stripPre, secretChars])
  have hb2 : tryB2 (tokenChars ++ '=' :: (v ++ tail)) = some (tokenChars, tail) := by
    simp [tryB2, stripPre_self_append, hg]
  simp only [matchAt, h0, Option.none_orElse, hb2, Option.some_orElse]

/-- At the head of an `auth=value` segment the third alternative fires. -/
theorem matchAt_auth {v tail : List Char} (hv : ∀ c ∈ v, stopChar c = false)
    (ht : tail = [] ∨ ∃ rest, tail = '&' :: rest) :
    matchAt (authChars ++ '=' :: (v ++ tail)) = some (authChars, tail) := by
  have hg : grpRun ('=' :: (v ++ tail)) = some ('=' :: v, tail) :=
    grpRun_split (by decide) hv ht
  have h4 : tryB1 ('=' :: (v ++ tail)) = none :=
    tryB1_cons_noword (by decide) (by simp [stripPre, secretChars])
  have h3 : tryB1 ('h' :: '=' :: (v ++ tail)) = none :=
    tryB1_cons_none h4 (by simp [stripPre, secretChars])
  have h2 : tryB1 ('t' :: 'h' :: '=' :: (v ++ tail)) = none :=
    tryB1_cons_none h3 (by simp [stripPre, secretChars])
  have h1 : tryB1 ('u' :: 't' :: 'h' :: '=' :: (v ++ tail)) = none :=
    tryB1_cons_none h2 (by simp [stripPre, secretChars])
  have h0 : tryB1 (authChars ++ '=' :: (v ++ tail)) = none :=
    tryB1_cons_none h1 (by simp [stripPre, secretChars])
  have hb2 : tryB2 (authChars ++ '=' :: (v ++ tail)) = none := by
    simp [tryB2, stripPre, tokenChars, authChars]
  have hb3 : tryB3 (authChars ++ '=' :: (v ++ tail)) = some (authChars, tail) := by
    simp [tryB3, stripPre_self_append, hg]
  simp only [matchAt, h0, Option.none_orElse, hb2, hb3, Option.some_orElse]

/-- At the head of a `password=value` segment (nonempty value) the
fourth alternative fires; its key group carries the `=`. -/
theorem matchAt_password {v tail : List Char} (hv : ∀ c ∈ v, stopChar c = false)
    (hne : v ≠ []) (ht : tail = [] ∨ ∃ rest, tail = '&' :: rest) :
    matchAt (passwordChars ++ '=' :: (v ++ tail)) = some (passwordChars ++ ['='], tail) := by
  have h8 : tryB1 ('=' :: (v ++ tail)) = none :=
    tryB1_cons_noword (by decide) (by simp [stripPre, secretChars])
  have h7 : tryB1 ('d' :: '=' :: (v ++ tail)) = none :=
    tryB1_cons_none h8 (by simp [stripPre, secretChars])
  have h6 : tryB1 ('r' :: 'd' :: '=' :: (v ++ tail)) = none :=
    tryB1_cons_none h7 (by simp [stripPre, secretChars])
  have h5 : tryB1 ('o' :: 'r' :: 'd' :: '=' :: (v ++ tail)) = none :=
    tryB1_cons_none h6 (by simp [stripPre, secretChars])
  have h4 : tryB1 ('w' :: 'o' :: 'r' :: 'd' :: '=' :: (v ++ tail)) = none :=
    tryB1_cons_none h5 (by simp [stripPre, secretChars])
  have h3 : tryB1 ('s' :: 'w' :: 'o' :: 'r' :: 'd' :: '=' :: (v ++ tail)) = none :=
    tryB1_cons_none h4 (by simp [stripPre, secretChars])
  have h2 : tryB1 ('s' :: 's' :: 'w' :: 'o' :: 'r' :: 'd' :: '=' :: (v ++ tail)) = none :=
    tryB1_cons_none h3 (by simp [stripPre, secretChars])
  have h1 : tryB1 ('a' :: 's' :: 's' :: 'w' :: 'o' :: 'r' :: 'd' :: '=' :: (v ++ tail)) = none :=
    tryB1_cons_none h2 (by simp [stripPre, secretChars])
  have h0 : tryB1 (passwordChars ++ '=' :: (v ++ tail)) = none :=
    tryB1_cons_none h1 (by simp [stripPre, secretChars])
  have hb2 : tryB2 (passwordChars ++ '=' :: (v ++ tail)) = none := by
    simp [tryB2, stripPre, tokenChars, passwordChars]
  have hb3 : tryB3 (passwordChars ++ '=' :: (v ++ tail)) = none := by
    simp [tryB3, stripPre, authChars, passwordChars]
  have hb4 : tryB4 (passwordChars ++ '=' :: (v ++ tail)) = some (passwordChars ++ ['='], tail) := by
    cases v with
    | nil => exact absurd rfl hne
    | cons c0 v2 =>
        have hg : grpRun (c0 :: (v2 ++ tail)) = some (c0 :: v2, tail) :=
          grpRun_split (hv c0 (by simp)) (fun c hc => hv c (by simp [hc])) ht
        have hdw : List.dropWhile pyWordChar ('=' :: ((c0 :: v2) ++ tail))
            = '=' :: ((c0 :: v2) ++ tail) :=
          List.dropWhile_cons_of_neg (by decide)
        have htw : List.takeWhile pyWordChar ('=' :: ((c0 :: v2) ++ tail)) = [] :=
          List.takeWhile_cons_of_neg (by decide)
        simp only [tryB4, stripPre_self_append, hdw, htw]
        simp only [if_true]
        rw [List.cons_append, hg]
        simp
  simp only [matchAt, h0, Option.none_orElse, hb2, hb3, hb4, Option.some_orElse]

theorem strData_append (a b : String) : (a ++ b).data = a.data ++ b.data := by
  cases a
  cases b
  rfl

theorem strEq {a b : String} (h : a.data = b.data) : a = b := by
  cases a
  cases b
  exact congrArg String.mk h

theorem segData (a b : String) (tail : List Char) :
    (a ++ "=" ++ b).data ++ tail = a.data ++ '=' :: (b.data ++ tail) := by
  rw [strData_append, strData_append]
  have h1 : ("=" : String).data = ['='] := rfl
  rw [h1]
  simp [List.append_assoc]

theorem renderQS_cons₂ (kv p2 : String × String) (r2 : List (String × String)) :
    renderQS (kv :: p2 :: r2)
      = (kv.1 ++ "=" ++ kv.2) ++ "&" ++ renderQS (p2 :: r2) := by
  simp [renderQS, joinAmp]

/-- One well-formed `key=value` segment followed by nothing or by an
ampersand-led remainder: scrub rewrites it to its redacted form and
continues after it. -/
theorem scrubL_goodPair (kv : String × String) (hkv : goodPair kv = true)
    {tail : List Char} (ht : tail = [] ∨ ∃ rest, tail = '&' :: rest) :
    scrubL ((kv.1 ++ "=" ++ kv.2).data ++ tail) = (redactedPair kv).data ++ scrubL tail := by
  obtain ⟨k1, v1⟩ := kv
  by_cases hs : k1 ∈ sensNames
  · simp only [goodPair, if_pos hs] at hkv
    obtain ⟨h1, h2⟩ := Bool.and_eq_true_iff.mp hkv
    have hne : (v1 : String).data ≠ [] := by
      intro hnil
      rw [hnil] at h1
      simp at h1
    have hv : ∀ c ∈ (v1 : String).data, stopChar c = false := by
      intro c hc
      have := List.all_eq_true.mp h2 c hc
      simpa using this
    have hs2 := hs
    simp only [sensNames, List.mem_cons, List.not_mem_nil, or_false] at hs2
    rw [segData]
    rcases hs2 with hk | hk | hk | hk <;> subst hk
    · have hred : redactedPair ("secret", v1) = "secret" ++ "=secret" := by
        simp [redactedPair, sensNames]
      rw [hred]
      have e1 : ("secret" : String).data = secretChars := rfl
      have e2 : (("secret" : String) ++ "=secret").data = secretChars ++ eqSecretChars := rfl
      rw [e1, e2]
      exact scrubL_match_step (matchAt_secret hv ht)
    · have hred : redactedPair ("token", v1) = "token" ++ "=secret" := by
        simp [redactedPair, sensNames]
      rw [hred]
      have e1 : ("token" : String).data = tokenChars := rfl
      have e2 : (("token" : String) ++ "=secret").data = tokenChars ++ eqSecretChars := rfl
      rw [e1, e2]
      exact scrubL_match_step (matchAt_token hv ht)
    · have hred : redactedPair ("auth", v1) = "auth" ++ "=secret" := by
        simp [redactedPair, sensNames]
      rw [hred]
      have e1 : ("auth" : String).data = authChars := rfl
      have e2 : (("auth" : String) ++ "=secret").data = authChars ++ eqSecretChars := rfl
      rw [e1, e2]
      exact scrubL_match_step (matchAt_auth hv ht)
    · have hred : redactedPair ("password", v1) = "password" ++ "==secret" := by
        simp [redactedPair, sensNames]
      rw [hred]
      have e1 : ("password" : String).data = passwordChars := rfl
      have e2 : (("password" : String) ++ "==secret").data
          = (passwordChars ++ ['=']) ++ eqSecretChars := rfl
      rw [e1, e2]
      exact scrubL_match_step (matchAt_password hv hne ht)
  · simp only [goodPair, if_neg hs] at hkv
    obtain ⟨h1, h2⟩ := Bool.and_eq_true_iff.mp hkv
    have hall : ∀ c ∈ ((k1 : String) ++ "=" ++ v1).data, stopChar c = false := by
      intro c hc
      have := List.all_eq_true.mp h1 c hc
      simpa using this
    have hred : redactedPair (k1, v1) = k1 ++ "=" ++ v1 := by
      simp [redactedPair, hs]
    rw [hred]
    exact scrubL_tf hall h2 ht

/-- scrub of a well-formed query string redacts exactly its sensitive
pairs (character-list form). -/
theorem scrubL_renderQS : ∀ (pairs : List (String × String)),
    (∀ kv ∈ pairs, goodPair kv = true) →
    scrubL (renderQS pairs).data = (joinAmp (pairs.map redactedPair)).data := by
  intro pairs
  induction pairs with
  | nil => intro _; rfl
  | cons kv rest ih =>
      intro h
      have h1 := h kv (by simp)
      cases rest with
      | nil =>
          have h0 := scrubL_goodPair kv h1 (Or.inl rfl)
          simpa [renderQS, joinAmp, scrubL_nil] using h0
      | cons p2 r2 =>
          have hrest : ∀ x ∈ p2 :: r2, goodPair x = true := fun x hx => h x (by simp [hx])
          have hamp : ("&" : String).data = ['&'] := rfl
          have hd : (renderQS (kv :: p2 :: r2)).data
              = (kv.1 ++ "=" ++ kv.2).data ++ '&' :: (renderQS (p2 :: r2)).data := by
            rw [renderQS_cons₂, strData_append, strData_append, hamp]
            simp [List.append_assoc]
          have hd2 : (joinAmp ((kv :: p2 :: r2).map redactedPair)).data
              = (redactedPair kv).data ++ '&' :: (joinAmp ((p2 :: r2).map redactedPair)).data := by
            simp only [List.map_cons]
            rw [show joinAmp (redactedPair kv :: redactedPair p2 :: List.map redactedPair r2)
                = redactedPair kv ++ "&" ++ joinAmp (redactedPair p2 :: List.map redactedPair r2)
                from rfl]
            rw [strData_append, strData_append, hamp]
            simp [List.append_assoc]
          have hampNone : matchAt (([] : List Char) ++ '&' :: (renderQS (p2 :: r2)).data)
              = none := matchAt_none_tf (by simp) (by decide) (Or.inr ⟨_, rfl⟩)
          rw [List.nil_append] at hampNone
          rw [hd, hd2, scrubL_goodPair kv h1 (Or.inr ⟨_, rfl⟩),
            scrubL_nomatch_step hampNone, ih hrest]

/-- scrub of a well-formed query string redacts exactly its sensitive
pairs. -/
theorem scrub_renderQS (pairs : List (String × String))
    (h : ∀ kv ∈ pairs, goodPair kv = true) :
    scrub (renderQS pairs) = joinAmp (pairs.map redactedPair) := by
  apply strEq
  rw [show (scrub (renderQS pairs)).data = scrubL (renderQS pairs).data from rfl,
    scrubL_renderQS pairs h]

theorem seg_redactedKV (kv : String × String) :
    (redactedKV kv).1 ++ "=" ++ (redactedKV kv).2 = redactedPair kv := by
  obtain ⟨k1, v1⟩ := kv
  by_cases hs : k1 ∈ sensNames
  · by_cases hp : k1 = "password"
    · simp only [redactedKV, redactedPair, if_pos hs, if_pos hp]
      apply strEq
      simp only [strData_append, List.append_assoc]
      rfl
    · simp only [redactedKV, redactedPair, if_pos hs, if_neg hp]
      apply strEq
      simp only [strData_append, List.append_assoc]
      rfl
  · simp [redactedKV, redactedPair, hs]

theorem renderQS_redactedKV (pairs : List (String × String)) :
    renderQS (pairs.map redactedKV) = joinAmp (pairs.map redactedPair) := by
  rw [renderQS, List.map_map]
  congr 1
  exact List.map_congr_left (fun kv _ => seg_redactedKV kv)

theorem goodPair_redactedKV {kv : String × String} (h : goodPair kv = true) :
    goodPair (redactedKV kv) = true := by
  obtain ⟨k1, v1⟩ := kv
  by_cases hs : k1 ∈ sensNames
  · have hs2 := hs
    simp only [sensNames, List.mem_cons, List.not_mem_nil, or_false] at hs2
    rcases hs2 with hk | hk | hk | hk <;> subst hk
    · rw [show redactedKV ("secret", v1) = ("secret", "secret") from rfl]
      decide
    · rw [show redactedKV ("token", v1) = ("token", "secret") from rfl]
      decide
    · rw [show redactedKV ("auth", v1) = ("auth", "secret") from rfl]
      decide
    · rw [show redactedKV ("password", v1) = ("password", "=secret") from rfl]
      decide
  · simpa [redactedKV, hs] using h

theorem redactedPair_redactedKV (kv : String × String) :
    redactedPair (redactedKV kv) = redactedPair kv := by
  obtain ⟨k1, v1⟩ := kv
  by_cases hs : k1 ∈ sensNames
  · have hs2 := hs
    simp only [sensNames, List.mem_cons, List.not_mem_nil, or_false] at hs2
    rcases hs2 with hk | hk | hk | hk <;> subst hk <;> rfl
  · simp [redactedKV, redactedPair, hs]

/-! ## The claims -/

/-- C1.  The claim says the exception hook answers a missing required
argument with status 400 and human-facing message exactly
"Missing required argument NAME" (in backticks).  The code intends
this (handler.py line 83 builds that very reason string), but the call
passes the keyword `type`, which `write_error`'s signature
(`status_code, reason=None, exc_info=None`, line 148) rejects, so the
call raises TypeError before writing anything; the hook's outer
`except` falls back to the framework's log_exception, and the eventual
framework send_error path produces status 400 (MissingArgumentError is
an HTTPError) with human-facing message "Bad Request" instead.  This
theorem evaluates the embedded code at the failing input: the call as
written is a TypeError, the fallback runs, and the transmitted error
payload carries "Bad Request", not the message the claim (and the
repository's own test suite) requires. -/
theorem C1_missing_argument_message_code_bug :
    isTypeError (callWriteError (loggerLogEff stDefault) 400 ["type", "reason", "exc_info"]
        (some "Missing required argument `required`") (some (Exc.missingArg "required")))
      = true
    ∧ (handleRequestException stDefault (Exc.missingArg "required")).status = 400
    ∧ (handleRequestException stDefault (Exc.missingArg "required")).superLogExceptionCalled = true
    ∧ asStr (errorDataField (handleRequestException stDefault (Exc.missingArg "required")) "for_human")
        = some "Bad Request"
    ∧ asStr (errorDataField (handleRequestException stDefault (Exc.missingArg "required")) "for_human")
        ≠ some "Missing required argument `required`" := by
  decide

/-- C2 counterexample.  The claim quantifies over every uncaught
exception, but a ValidationError is handled by the second branch of
log_exception (handler.py lines 85-87), which never reaches the
rollbar call at line 93: with a token configured and a rollbar oracle
that would succeed, the exception is not an HTTP error (so the claim
requires a report) yet no report happens. -/
theorem C2_counterexample_validation_unreported :
    (handleRequestException
        { stDefault with rollbarAccessToken := some "rollbar-token",
                         rollbarWould := RollbarOutcome.success "RB" }
        (Exc.validation "Invalid value 10 (int): must be string (at value)" ["value"])
      ).rollbarReported = false
    ∧ isInstanceHttpError
        (Exc.validation "Invalid value 10 (int): must be string (at value)" ["value"]) = false := by
  decide

/-- C2 amended: with an error-reporting token configured, every
uncaught exception reaching the generic branch of log_exception (that
is, neither a MissingArgumentError nor a ValidationError) is reported
to rollbar unless it is exactly an HTTPError with status under 500;
and when the report succeeds, the returned token becomes the
X-Rollbar-Token response header and the `rollbar` entry of the error
payload. -/
theorem C2_rollbar_report_amended (tok : String) (ro : RollbarOutcome) (acc : String)
    (rid : Option String) (uu : String) (pexp pid pmore : Option String)
    (res meth : String) (tex : String → Bool) (ren : String → String) (e : Exc)
    (hma : isMissingArg e = false) (hv : isValidation e = false) :
    (handleRequestException (mkSt (some tok) ro acc rid uu pexp pid pmore res meth tex ren) e
      ).rollbarReported = !(isExactHttpUnder500 e)
    ∧ (∀ rb, ro = RollbarOutcome.success rb → isExactHttpUnder500 e = false →
        hGet (handleRequestException (mkSt (some tok) ro acc rid uu pexp pid pmore res meth tex ren) e
          ).headers "X-Rollbar-Token" = some rb
        ∧ errorDataField (handleRequestException (mkSt (some tok) ro acc rid uu pexp pid pmore res meth tex ren) e
          ) "rollbar" = some (JVal.jstr rb)) := by
  obtain ⟨r, hr, d1, d2, d3, d4, d5, d6⟩ :=
    driver_char0 (mkSt (some tok) ro acc rid uu pexp pid pmore res meth tex ren) e
  obtain ⟨l1, l2, l3, l4, l5⟩ := logException_char (some tok) ro acc rid uu pexp pid pmore res meth tex ren e
  rw [hr]
  constructor
  · rw [d2, l2]
    simp [hma, hv]
  · intro rb hro hunder
    have hattr := l5 rb hro (by simp) hunder hma hv
    rw [hattr] at d6
    simp only at d6
    obtain ⟨hh, dd, hds, hdg⟩ := d6
    exact ⟨hh, by simp [errorDataField, hds, hdg]⟩

/-- C3 counterexample.  A ValidationError reaching the hook is not an
HTTP error (let alone one under 500), so the claim requires a full
traceback record; but the ValidationError branch of log_exception only
calls self.log, and no logger.traceback record is ever emitted for it. -/
theorem C3_counterexample_validation_no_traceback :
    (handleRequestException stDefault
        (Exc.validation "Invalid value 10 (int): must be string (at value)" ["value"])
      ).loggerTracebacks = 0
    ∧ isInstanceHttpError
        (Exc.validation "Invalid value 10 (int): must be string (at value)" ["value"]) = false := by
  decide

/-- C3 amended: a traceback record is emitted through the repository's
logger if and only if the exception reaches the generic branch of
log_exception (it is neither a MissingArgumentError nor a
ValidationError) and is not exactly an HTTPError with status below
500.  (MissingArgumentError and ValidationError are handled by the
first two branches, which log a structured record but no traceback.) -/
theorem C3_traceback_iff_amended (tok : Option String) (ro : RollbarOutcome) (acc : String)
    (rid : Option String) (uu : String) (pexp pid pmore : Option String)
    (res meth : String) (tex : String → Bool) (ren : String → String) (e : Exc) :
    0 < (handleRequestException (mkSt tok ro acc rid uu pexp pid pmore res meth tex ren) e
      ).loggerTracebacks
    ↔ (isMissingArg e = false ∧ isValidation e = false ∧ isExactHttpUnder500 e = false) := by
  obtain ⟨r, hr, d1, d2, d3, d4, d5, d6⟩ :=
    driver_char0 (mkSt tok ro acc rid uu pexp pid pmore res meth tex ren) e
  obtain ⟨l1, l2, l3, l4, l5⟩ := logException_char tok ro acc rid uu pexp pid pmore res meth tex ren e
  rw [hr, d3]
  exact l3

/-- C9: the request identifier is fixed on first access — the
client-supplied X-Request-Id header when present, a fresh uuid4
otherwise — every later access returns the same value (the memo), the
X-Request-Id response header echoes it (set_default_headers, and again
after the framework clears the response during error handling), and
the meta.request entry stamped by finish carries the same value. -/
theorem C9_request_id_fixed (tok : Option String) (ro : RollbarOutcome) (acc : String)
    (rid : Option String) (uu : String) (pexp pid pmore : Option String)
    (res meth : String) (tex : String → Bool) (ren : String → String) (e : Exc) :
    (getId (mkSt tok ro acc rid uu pexp pid pmore res meth tex ren)).1 = rid.getD uu
    ∧ (∀ st : St, getId ((getId st).2) = ((getId st).1, (getId st).2))
    ∧ (∀ st : St, hGet (setDefaultHeaders st).headers "X-Request-Id" = some ((getId st).1))
    ∧ hGet (handleRequestException (mkSt tok ro acc rid uu pexp pid pmore res meth tex ren) e
        ).headers "X-Request-Id" = some (rid.getD uu)
    ∧ shapedMetaField (handleRequestException (mkSt tok ro acc rid uu pexp pid pmore res meth tex ren) e
        ) "request" = some (JVal.jstr (rid.getD uu)) := by
  obtain ⟨r, hr, d1, d2, d3, d4, d5, d6⟩ :=
    driver_char0 (mkSt tok ro acc rid uu pexp pid pmore res meth tex ren) e
  obtain ⟨l1, l2, l3, l4, l5⟩ := logException_char tok ro acc rid uu pexp pid pmore res meth tex ren e
  refine ⟨by simp [getId_fst, mkSt], ?_, ?_, ?_, ?_⟩
  · intro st
    rw [getId_snd st]
    simp [getId]
  · intro st
    simp only [setDefaultHeaders]
    rw [getId_snd]
    simp [hGet_hSet_self, getId_fst, hDel]
  · rw [hr, d4, l4]
  · rw [hr, d5, l4]

theorem dSetdefault_present (kvs : JDict) (k : String) (v w : JVal)
    (h : dGet kvs k = some v) : dSetdefault kvs k w = kvs := by
  simp [dSetdefault, h]

theorem dSetdefault_absent (kvs : JDict) (k : String) (w : JVal)
    (h : dGet kvs k = none) : dSetdefault kvs k w = dSet kvs k w := by
  simp [dSetdefault, h]

/-- C4: for a mapping payload, finish guarantees a `meta.status` entry
(the incoming one when present, else the current response status),
re-applies the response status as `int(meta['status'])`, and stamps
`meta.request` with the request identifier, before transmission.
Hypotheses: a `meta` entry, when present, is itself a mapping (Python
raises AttributeError otherwise), an incoming `meta.status` value must
be int()-convertible (ValueError otherwise), and the current status is
not 0 (the `or 200` default; tornado statuses are never 0). -/
theorem C4_finish_meta_status_request (st : St) (kvs : JDict)
    (hm : dGet kvs "meta" = none ∨ ∃ m, dGet kvs "meta" = some (JVal.jdict m))
    (hs : ∀ m v, dGet kvs "meta" = some (JVal.jdict m) → dGet m "status" = some v →
      (pyInt v).isSome)
    (h0 : st.status ≠ 0) :
    ∃ st' c, finishH st (some (JVal.jdict kvs)) = Except.ok (st', c)
      ∧ (dGet kvs "meta" = none →
          shapedMetaField st' "status" = some (JVal.jint st.status) ∧ st'.status = st.status)
      ∧ (∀ m, dGet kvs "meta" = some (JVal.jdict m) → dGet m "status" = none →
          shapedMetaField st' "status" = some (JVal.jint st.status) ∧ st'.status = st.status)
      ∧ (∀ m v, dGet kvs "meta" = some (JVal.jdict m) → dGet m "status" = some v →
          shapedMetaField st' "status" = some v ∧ some st'.status = pyInt v)
      ∧ shapedMetaField st' "request" = some (JVal.jstr ((getId st).1)) := by
  have hD : (if st.status = 0 then 200 else st.status) = st.status := by simp [h0]
  have e4 : pyInt (JVal.jint st.status) = some st.status := rfl
  rcases hm with hnone | ⟨m, hsome⟩
  · have e3 : dGet (dSetdefault [] "status" (JVal.jint st.status)) "status"
        = some (JVal.jint st.status) := by simp [dSetdefault, dGet, dSet]
    simp only [finishH, hnone, hD, e3, Option.getD_some, e4]
    split <;> refine ⟨_, _, rfl, ?_, ?_, ?_, ?_⟩
    · intro _
      constructor <;>
        simp [shapedMetaField, dGet_dSet_self, dGet_dSet_ne, dSetdefault, dGet, dSet,
          getId_snd, setStatus]
    · intro m' hm'; cases hm'
    · intro m' v' hm' _; cases hm'
    · simp [shapedMetaField, dGet_dSet_self, dGet_dSet_ne, dSetdefault, dGet, dSet,
        getId_snd, setStatus, getId_fst]
    · intro _
      constructor <;>
        simp [shapedMetaField, dGet_dSet_self, dGet_dSet_ne, dSetdefault, dGet, dSet,
          getId_snd, setStatus]
    · intro m' hm'; cases hm'
    · intro m' v' hm' _; cases hm'
    · simp [shapedMetaField, dGet_dSet_self, dGet_dSet_ne, dSetdefault, dGet, dSet,
        getId_snd, setStatus, getId_fst]
  · rcases hstat : dGet m "status" with _ | v
    · have e2 : dSetdefault m "status" (JVal.jint st.status)
          = dSet m "status" (JVal.jint st.status) := dSetdefault_absent _ _ _ hstat
      have e3 : dGet (dSet m "status" (JVal.jint st.status)) "status"
          = some (JVal.jint st.status) := dGet_dSet_self _ _ _
      simp only [finishH, hsome, hD, e2, e3, Option.getD_some, e4]
      split <;> refine ⟨_, _, rfl, ?_, ?_, ?_, ?_⟩
      · intro hmeta; cases hmeta
      · intro m' hm' _
        constructor <;>
          simp [shapedMetaField, dGet_dSet_self, dGet_dSet_ne, getId_snd, setStatus]
      · intro m' v' hm' hv'
        injection hm' with hmm; injection hmm with hmm
        rw [← hmm, hstat] at hv'; cases hv'
      · simp [shapedMetaField, dGet_dSet_self, dGet_dSet_ne, getId_snd, setStatus, getId_fst]
      · intro hmeta; cases hmeta
      · intro m' hm' _
        constructor <;>
          simp [shapedMetaField, dGet_dSet_self, dGet_dSet_ne, getId_snd, setStatus]
      · intro m' v' hm' hv'
        injection hm' with hmm; injection hmm with hmm
        rw [← hmm, hstat] at hv'; cases hv'
      · simp [shapedMetaField, dGet_dSet_self, dGet_dSet_ne, getId_snd, setStatus, getId_fst]
    · obtain ⟨n, hn⟩ := Option.isSome_iff_exists.mp (hs m v hsome hstat)
      have e2 : dSetdefault m "status" (JVal.jint st.status) = m :=
        dSetdefault_present _ _ _ _ hstat
      simp only [finishH, hsome, hD, e2, hstat, Option.getD_some, hn]
      split <;> refine ⟨_, _, rfl, ?_, ?_, ?_, ?_⟩
      · intro hmeta; cases hmeta
      · intro m' hm' hv'
        injection hm' with hmm; injection hmm with hmm
        rw [← hmm, hstat] at hv'; cases hv'
      · intro m' v' hm' hv'
        injection hm' with hmm; injection hmm with hmm
        rw [← hmm, hstat] at hv'; injection hv' with hvv
        rw [← hvv, hn]
        constructor <;>
          simp [shapedMetaField, dGet_dSet_self, dGet_dSet_ne, hstat, getId_snd, setStatus]
      · simp [shapedMetaField, dGet_dSet_self, dGet_dSet_ne, getId_snd, setStatus, getId_fst]
      · intro hmeta; cases hmeta
      · intro m' hm' hv'
        injection hm' with hmm; injection hmm with hmm
        rw [← hmm, hstat] at hv'; cases hv'
      · intro m' v' hm' hv'
        injection hm' with hmm; injection hmm with hmm
        rw [← hmm, hstat] at hv'; injection hv' with hvv
        rw [← hvv, hn]
        constructor <;>
          simp [shapedMetaField, dGet_dSet_self, dGet_dSet_ne, hstat, getId_snd, setStatus]
      · simp [shapedMetaField, dGet_dSet_self, dGet_dSet_ne, getId_snd, setStatus, getId_fst]

theorem proj_export_norm (st : St) (c : Int) (r : Option String) :
    exportFmt (getId (setStatus st c r)).2.pathExport (getId (setStatus st c r)).2.accept
      = exportFmt st.pathExport st.accept := by
  rw [getId_snd]; rfl

/-- C5: a sequence payload is replaced, before transmission, by the
mapping `{resource: sequence, meta: {total: n}}` (whose meta the dict
pass then completes with status and request); for the json format the
transmitted chunk is exactly that mapping.  Hypotheses: the handler's
resource is not literally "meta" (the Python dict display would
collapse the two keys), and the current status is not 0. -/
theorem C5_finish_list_wrap (st : St) (xs : List JVal)
    (hres : st.resource ≠ "meta") (h0 : st.status ≠ 0) :
    ∃ st' c, finishH st (some (JVal.jlist xs)) = Except.ok (st', c)
      ∧ (∃ shp, st'.shaped = some shp
          ∧ dGet shp st.resource = some (JVal.jlist xs)
          ∧ (exportFmt st.pathExport st.accept = "txt"
             ∨ exportFmt st.pathExport st.accept = "html"
             ∨ c = some (JVal.jdict shp)))
      ∧ shapedMetaField st' "total" = some (JVal.jint xs.length) := by
  have hD : (if st.status = 0 then 200 else st.status) = st.status := by simp [h0]
  have e4 : pyInt (JVal.jint st.status) = some st.status := rfl
  have hkvs : dSet (dSet [] st.resource (JVal.jlist xs)) "meta"
        (JVal.jdict [("total", JVal.jint xs.length)])
      = [(st.resource, JVal.jlist xs), ("meta", JVal.jdict [("total", JVal.jint xs.length)])] := by
    simp [dSet, hres]
  have e1 : dGet [(st.resource, JVal.jlist xs),
        ("meta", JVal.jdict [("total", JVal.jint xs.length)])] "meta"
      = some (JVal.jdict [("total", JVal.jint xs.length)]) := by
    simp [dGet, hres]
  have e2 : dSetdefault [("total", JVal.jint xs.length)] "status" (JVal.jint st.status)
      = [("total", JVal.jint xs.length), ("status", JVal.jint st.status)] := by
    simp [dSetdefault, dGet, dSet]
  have e3 : dGet [("total", JVal.jint xs.length), ("status", JVal.jint st.status)] "status"
      = some (JVal.jint st.status) := by simp [dGet]
  simp only [finishH, hkvs, e1, e2, e3, hD, Option.getD_some, e4]
  split
  · rename_i hx
    rw [proj_export_norm] at hx
    refine ⟨_, _, rfl, ?_, ?_⟩
    · refine ⟨_, rfl, ?_, ?_⟩
      · simp [dSet, dGet, hres]
      · rcases hx with h | h
        · exact Or.inl h
        · exact Or.inr (Or.inl h)
    · simp [shapedMetaField, dSet, dGet, hres]
  · refine ⟨_, _, rfl, ?_, ?_⟩
    · refine ⟨_, rfl, ?_, Or.inr (Or.inr rfl)⟩
      simp [dSet, dGet, hres]
    · simp [shapedMetaField, dSet, dGet, hres]

/-- C6: when the negotiated format is txt or html and no template can
be found, finish completes normally (no secondary error) and the body
is the plain diagnostic "template not found at DOC", DOC being the
conventional template path computed from the final status, resource,
method and path kwargs. -/
theorem C6_template_fallback (st : St) (kvs : JDict)
    (hexp : exportFmt st.pathExport st.accept = "txt" ∨ exportFmt st.pathExport st.accept = "html")
    (hm : dGet kvs "meta" = none ∨ ∃ m, dGet kvs "meta" = some (JVal.jdict m))
    (hs : ∀ m v, dGet kvs "meta" = some (JVal.jdict m) → dGet m "status" = some v →
      (pyInt v).isSome)
    (h0 : st.status ≠ 0)
    (htmpl : ∀ d, st.templateExistsFn d = false) :
    ∃ st' c, finishH st (some (JVal.jdict kvs)) = Except.ok (st', c)
      ∧ c = some (JVal.jstr ("template not found at "
            ++ docPath st' (exportFmt st.pathExport st.accept))) := by
  have hD : (if st.status = 0 then 200 else st.status) = st.status := by simp [h0]
  have e4 : pyInt (JVal.jint st.status) = some st.status := rfl
  rcases hm with hnone | ⟨m, hsome⟩
  · have e3 : dGet (dSetdefault [] "status" (JVal.jint st.status)) "status"
        = some (JVal.jint st.status) := by simp [dSetdefault, dGet, dSet]
    simp only [finishH, hnone, hD, e3, Option.getD_some, e4, proj_export_norm]
    rw [if_pos hexp]
    refine ⟨_, _, rfl, ?_⟩
    simp [renderOrFallback, docPath, getId_snd, setStatus, htmpl]
  · rcases hstat : dGet m "status" with _ | v
    · have e2 : dSetdefault m "status" (JVal.jint st.status)
          = dSet m "status" (JVal.jint st.status) := dSetdefault_absent _ _ _ hstat
      have e3 : dGet (dSet m "status" (JVal.jint st.status)) "status"
          = some (JVal.jint st.status) := dGet_dSet_self _ _ _
      simp only [finishH, hsome, hD, e2, e3, Option.getD_some, e4, proj_export_norm]
      rw [if_pos hexp]
      refine ⟨_, _, rfl, ?_⟩
      simp [renderOrFallback, docPath, getId_snd, setStatus, htmpl]
    · obtain ⟨n, hn⟩ := Option.isSome_iff_exists.mp (hs m v hsome hstat)
      have e2 : dSetdefault m "status" (JVal.jint st.status) = m :=
        dSetdefault_present _ _ _ _ hstat
      simp only [finishH, hsome, hD, e2, hstat, Option.getD_some, hn, proj_export_norm]
      rw [if_pos hexp]
      refine ⟨_, _, rfl, ?_⟩
      simp [renderOrFallback, docPath, getId_snd, setStatus, htmpl]

theorem C2_rollbar_report_amended_witness :
    isMissingArg (Exc.other "boom") = false
    ∧ isValidation (Exc.other "boom") = false
    ∧ hGet (handleRequestException (mkSt (some "t") (RollbarOutcome.success "RB") "" none "u"
        none none none "things" "GET" (fun _ => false) (fun d => d)) (Exc.other "boom")
      ).headers "X-Rollbar-Token" = some "RB" :=
  ⟨rfl, rfl,
    ((C2_rollbar_report_amended "t" (RollbarOutcome.success "RB") "" none "u" none none none
        "things" "GET" (fun _ => false) (fun d => d) (Exc.other "boom") rfl rfl).2
      "RB" rfl rfl).1⟩

theorem C4_finish_meta_status_request_witness :
    (dGet [("ok", JVal.jbool true)] "meta" = none
      ∨ ∃ m, dGet [("ok", JVal.jbool true)] "meta" = some (JVal.jdict m))
    ∧ stDefault.status ≠ 0
    ∧ (∃ st' c, finishH stDefault (some (JVal.jdict [("ok", JVal.jbool true)])) = Except.ok (st', c)
        ∧ (dGet [("ok", JVal.jbool true)] "meta" = none →
            shapedMetaField st' "status" = some (JVal.jint stDefault.status)
            ∧ st'.status = stDefault.status)
        ∧ (∀ m, dGet [("ok", JVal.jbool true)] "meta" = some (JVal.jdict m) →
            dGet m "status" = none →
            shapedMetaField st' "status" = some (JVal.jint stDefault.status)
            ∧ st'.status = stDefault.status)
        ∧ (∀ m v, dGet [("ok", JVal.jbool true)] "meta" = some (JVal.jdict m) →
            dGet m "status" = some v →
            shapedMetaField st' "status" = some v ∧ some st'.status = pyInt v)
        ∧ shapedMetaField st' "request" = some (JVal.jstr ((getId stDefault).1))) :=
  ⟨Or.inl rfl, by decide,
    C4_finish_meta_status_request stDefault [("ok", JVal.jbool true)] (Or.inl rfl)
      (fun m v hmv _ => Option.noConfusion hmv) (by decide)⟩

theorem C5_finish_list_wrap_witness :
    stDefault.resource ≠ "meta"
    ∧ stDefault.status ≠ 0
    ∧ (∃ st' c, finishH stDefault (some (JVal.jlist [JVal.jint 1, JVal.jint 2]))
          = Except.ok (st', c)
        ∧ (∃ shp, st'.shaped = some shp
            ∧ dGet shp stDefault.resource = some (JVal.jlist [JVal.jint 1, JVal.jint 2])
            ∧ (exportFmt stDefault.pathExport stDefault.accept = "txt"
               ∨ exportFmt stDefault.pathExport stDefault.accept = "html"
               ∨ c = some (JVal.jdict shp)))
        ∧ shapedMetaField st' "total"
            = some (JVal.jint ([JVal.jint 1, JVal.jint 2] : List JVal).length)) :=
  ⟨by decide, by decide,
    C5_finish_list_wrap stDefault [JVal.jint 1, JVal.jint 2] (by decide) (by decide)⟩

theorem C6_template_fallback_witness :
    (exportFmt ({ stDefault with accept := "text/html" } : St).pathExport
        ({ stDefault with accept := "text/html" } : St).accept = "txt"
     ∨ exportFmt ({ stDefault with accept := "text/html" } : St).pathExport
        ({ stDefault with accept := "text/html" } : St).accept = "html")
    ∧ (∀ d, ({ stDefault with accept := "text/html" } : St).templateExistsFn d = false)
    ∧ (∃ st' c, finishH { stDefault with accept := "text/html" }
          (some (JVal.jdict [("ok", JVal.jbool true)])) = Except.ok (st', c)
        ∧ c = some (JVal.jstr ("template not found at "
              ++ docPath st' (exportFmt ({ stDefault with accept := "text/html" } : St).pathExport
                    ({ stDefault with accept := "text/html" } : St).accept)))) :=
  ⟨Or.inr (by decide), fun _ => rfl,
    C6_template_fallback { stDefault with accept := "text/html" } [("ok", JVal.jbool true)]
      (Or.inr (by decide)) (Or.inl rfl)
      (fun m v hmv _ => Option.noConfusion hmv) (by decide) (fun _ => rfl)⟩

/-- C8 counterexample.  The export path parameter can be present with
the (falsy) empty-string value: the claim then requires the negotiated
format to be the parameter with dots removed, i.e. "", but the
`or`-truthiness in handler.py line 33 falls back to Accept-based
negotiation and yields "json". -/
theorem C8_counterexample_empty_export_param :
    exportFmt (some "") "" = "json" ∧ removeDots "" = "" ∧ ("json" : String) ≠ "" := by
  decide

/-- C8 amended: the negotiated format equals the export path parameter
with dots removed when that parameter is present and non-empty (Python
truthiness); when it is absent or empty, the format is "html" if the
Accept header contains "text/html" and "json" otherwise. -/
theorem C8_export_negotiation_amended (s acc : String) :
    (s ≠ "" → exportFmt (some s) acc = removeDots s)
    ∧ exportFmt none acc = (if strIn "text/html" acc then "html" else "json")
    ∧ exportFmt (some "") acc = (if strIn "text/html" acc then "html" else "json") := by
  refine ⟨?_, ?_, ?_⟩
  · intro h
    simp [exportFmt, h]
  · cases hsi : strIn "text/html" acc <;> simp only [exportFmt, hsi] <;> decide
  · cases hsi : strIn "text/html" acc <;> simp only [exportFmt, hsi] <;> decide

theorem C8_export_negotiation_amended_witness :
    ("v1.json" : String) ≠ ""
    ∧ exportFmt (some "v1.json") "text/html" = removeDots "v1.json" :=
  ⟨by decide, (C8_export_negotiation_amended "v1.json" "text/html").1 (by decide)⟩

/-- C7 counterexample.  For the password alternative the matched key
group carries its own `=` (pattern `password\\w*\\=`), so the
substitution `\\g<key>=secret` yields `password==secret`: the pair's
value becomes the text "=secret", not the literal "secret" required by
the claim. -/
theorem C7_counterexample_password_double_eq :
    scrub "password=hunter2" = "password==secret"
    ∧ scrub "password=hunter2" ≠ "password=secret" := by
  decide

/-- C7 (amended).  Every per-request log record is routed by status
severity (>499 fatal, >399 warn, else info) and is scrubbed before
emission; on a well-formed query string (each pair either one of the
four sensitive key names with a nonempty stop-character-free value, or
trigger-free) scrub replaces every sensitive pair's value: secret,
token and auth pairs become `key=secret`, while password pairs become
`password==secret` because the matched key group keeps its own `=`. -/
theorem C7_sensitive_redaction_amended (r : LogReq) (pairs : List (String × String))
    (h : ∀ kv ∈ pairs, goodPair kv = true) :
    loggerHandler r = ((if r.status > 499 then Severity.fatal
        else if r.status > 399 then Severity.warn else Severity.info),
      scrub (dumpsJ (JVal.jdict (logBasics r))))
    ∧ scrub (renderQS pairs) = joinAmp (pairs.map redactedPair) := by
  refine ⟨?_, scrub_renderQS pairs h⟩
  by_cases h1 : r.status > 499
  · simp [loggerHandler, h1]
  · by_cases h2 : r.status > 399 <;> simp [loggerHandler, h1, h2]

theorem C7_sensitive_redaction_amended_witness :
    (∀ kv ∈ ([("token", "abc123"), ("user", "bob"), ("password", "hunter2")]
        : List (String × String)), goodPair kv = true)
    ∧ scrub (renderQS [("token", "abc123"), ("user", "bob"), ("password", "hunter2")])
        = "token=secret&user=bob&password==secret" := by
  refine ⟨by decide, ?_⟩
  rw [(C7_sensitive_redaction_amended ⟨200, "GET", "/x", "OK", "1", none, []⟩
      [("token", "abc123"), ("user", "bob"), ("password", "hunter2")] (by decide)).2]
  decide

/-- C10 counterexample.  scrub is not idempotent on arbitrary strings:
"passwordauthX" is rewritten via the auth alternative to
"passwordauth=secret", which the password alternative (its `\\w*` now
ending in `=`) rewrites again to "passwordauth==secret". -/
theorem C10_counterexample_not_idempotent :
    scrub (scrub "passwordauthX") ≠ scrub "passwordauthX" := by
  decide

/-- C10 (amended).  On well-formed query strings (each pair either a
sensitive key with nonempty stop-character-free value or trigger-free)
a second scrub leaves the redacted output unchanged: the redacted pairs
are again well-formed pairs whose redaction is a fixed point. -/
theorem C10_scrub_idempotent_on_queries_amended (pairs : List (String × String))
    (h : ∀ kv ∈ pairs, goodPair kv = true) :
    scrub (scrub (renderQS pairs)) = scrub (renderQS pairs) := by
  have h2 : ∀ kv ∈ pairs.map redactedKV, goodPair kv = true := by
    intro kv hkv
    obtain ⟨x, hx, rfl⟩ := List.mem_map.mp hkv
    exact goodPair_redactedKV (h x hx)
  calc scrub (scrub (renderQS pairs))
      = scrub (joinAmp (pairs.map redactedPair)) := by rw [scrub_renderQS pairs h]
    _ = scrub (renderQS (pairs.map redactedKV)) := by rw [renderQS_redactedKV]
    _ = joinAmp ((pairs.map redactedKV).map redactedPair) := scrub_renderQS _ h2
    _ = joinAmp (pairs.map redactedPair) := by
          rw [List.map_map]
          congr 1
          exact List.map_congr_left (fun kv _ => redactedPair_redactedKV kv)
    _ = scrub (renderQS pairs) := (scrub_renderQS pairs h).symm

theorem C10_scrub_idempotent_on_queries_amended_witness :
    (∀ kv ∈ ([("secret", "x1"), ("q", "v")] : List (String × String)), goodPair kv = true)
    ∧ scrub (scrub (renderQS [("secret", "x1"), ("q", "v")]))
        = scrub (renderQS [("secret", "x1"), ("q", "v")]) :=
  ⟨by decide,
    C10_scrub_idempotent_on_queries_amended [("secret", "x1"), ("q", "v")] (by decide)⟩

end Tornwrap
